import Mathlib

/-!
Verification development for the `generator-openapi` plugin: a shallow
embedding of the plugin entry (`src/index.ts`, current revision), the
operation extractor (`utils/openapi.ts`), the entity builders
(`utils/services.ts`, `utils/messages.ts`) and the per-message-kind SDK
dispatch (`utils/catalog-shorthand.ts`), together with theorems about the
catalog reconciliation behaviour.

Modelling conventions:
* JavaScript strings are Lean `String`s; a possibly-`undefined` string is an
  `Option String`.  JS truthiness of a string is "non-empty"; of an optional
  string it is "present and non-empty".
* JSON schema values that the source merely serialises and stores
  (request bodies, response schemas) are modelled as their serialised
  `String` form; the external serialisers (`JSON.stringify`, `yaml.dump`)
  are collapsed to opaque-but-executable renderings, which no claim
  inspects.
* The external OpenAPI parser (`SwaggerParser.validate` / `dereference`) is
  an input to the model: each configured spec carries an
  `Option OpenAPIDocument` (`none` = validation failure) plus the raw file
  contents.
* The external catalog SDK (`@eventcatalog/sdk`) is modelled from the spec
  (see the doc comments on the individual operations).
* `console.log` output is modelled as a list of log lines returned next to
  the catalog (colouring dropped); log output never feeds back into the
  computation, exactly as in the source.
* The license check (`utils/checkLicense`) performs only network I/O and
  gates nothing that the claims mention; it is not modelled.
-/

/-- JS truthiness of a string: the empty string is falsy. -/
def strTruthy (s : String) : Bool := s ≠ ""

/-- JS truthiness of a possibly-undefined string. -/
def optTruthy : Option String → Bool
  | some s => strTruthy s
  | none => false

/-- JS `a || b` for a possibly-undefined string `a` and a string default. -/
def jsOr : Option String → String → String
  | some s, d => if s = "" then d else s
  | none, d => d

/-- JS `s.toUpperCase()` (ASCII, which is all the source feeds it). -/
def toUpperStr (s : String) : String := String.mk (s.data.map Char.toUpper)

/-- JS `s.toLowerCase()` (ASCII). -/
def toLowerStr (s : String) : String := String.mk (s.data.map Char.toLower)

/-- Drop the first `/` of a character list, keeping everything else. -/
def removeFirstSlash : List Char → List Char
  | [] => []
  | c :: cs => if c = '/' then cs else c :: removeFirstSlash cs

/-- JS `path.replace(/\//, '').replace(/\//g, '_')` from `buildMessage`:
the first slash is removed, every remaining slash becomes `_`. -/
def jsPathSanitize (p : String) : String :=
  String.mk ((removeFirstSlash p.data).map (fun c => if c = '/' then '_' else c))

/-- Model of the external `slugify` library (not code of this repository):
lowercases when asked, turns spaces into `-`, and in strict mode keeps only
alphanumerics and `-`.  No claim depends on its internals, only on the
slug being a deterministic function of its input. -/
def slugify (lower strict : Bool) (s : String) : String :=
  let t := if lower then toLowerStr s else s
  let t := String.mk (t.data.map (fun c => if c = ' ' then '-' else c))
  if strict then String.mk (t.data.filter (fun c => c.isAlphanum || c = '-')) else t

/-- Model of Node's `path.basename`: the last `/`-separated segment. -/
def basenameChars : List Char → List Char → List Char
  | cur, [] => cur.reverse
  | cur, c :: cs => if c = '/' then basenameChars [] cs else basenameChars (c :: cur) cs

def basename (p : String) : String := String.mk (basenameChars [] p.data)

/-- Suffix test on strings via character lists (JS `String.prototype.endsWith`). -/
def endsWithStr (s suffix : String) : Bool := suffix.data.isSuffixOf s.data

/-- Key-prefix test via character lists (JS `String.prototype.startsWith`). -/
def startsWithStr (s p : String) : Bool := p.data.isPrefixOf s.data

/-- First-match association lookup, mirroring access to a JS object built
with unique keys (`extensions[key]`, `specifications[key]`). -/
def lookupObj : List (String × String) → String → Option String
  | [], _ => none
  | (k', v') :: rest, k => if k' = k then some v' else lookupObj rest k

/-- One step of a JS object spread: update the value in place when the key
exists (keeping its position), otherwise append the new entry. -/
def objInsert : List (String × String) → String → String → List (String × String)
  | [], k, v => [(k, v)]
  | (k', v') :: rest, k, v => if k' = k then (k, v) :: rest else (k', v') :: objInsert rest k v

/-- JS object spread `{...a, ...b}` over association lists. -/
def objSpread (a b : List (String × String)) : List (String × String) :=
  b.foldl (fun acc kv => objInsert acc kv.1 kv.2) a

/-! ## Data model of the OpenAPI document (the parts the source reads) -/

structure ExternalDocs where
  description : String
  url : String
deriving DecidableEq

structure DocInfo where
  title : String
  version : String
  description : Option String
deriving DecidableEq

structure DocTag where
  name : String
deriving DecidableEq

/-- A query/path/header parameter of an operation (`utils/openapi.ts`
extracts these; only `name`, `in`, `required`, `description` are read by
the markdown template).  The source field `in` is a Lean keyword. -/
structure Parameter where
  name : String
  «in» : String
  required : Bool
  description : Option String
deriving DecidableEq

/-- One response entry as extracted by `getSchemasByOperationId`: the
serialised schema (or inline content) plus the `isSchema` flag the source
attaches. -/
structure RespEntry where
  statusCode : String
  content : String
  isSchema : Bool
deriving DecidableEq

/-- An operation as it appears in the parsed OpenAPI document, before
extraction.  `extensions` holds the raw `x-…` entries of the operation
object; schema data is carried in serialised form (see module comment). -/
structure RawOperation where
  operationId : Option String
  summary : Option String
  description : Option String
  tags : List String
  externalDocs : Option ExternalDocs
  extensions : List (String × String)
  parameters : List Parameter
  requestBody : Option String
  responses : List RespEntry
deriving DecidableEq

/-- The parsed (dereferenced) OpenAPI document: `info`, optional document
tags (`document.tags || []`), optional `externalDocs`, and the path →
method → operation tree in declaration order. -/
structure OpenAPIDocument where
  info : DocInfo
  tags : Option (List DocTag)
  externalDocs : Option ExternalDocs
  paths : List (String × List (String × RawOperation))
deriving DecidableEq

/-- The transient operation record produced by `getOperationsByType`
(`utils/openapi.ts`). -/
structure Operation where
  path : String
  method : String
  operationId : Option String
  externalDocs : Option ExternalDocs
  type : String
  action : String
  description : Option String
  summary : Option String
  tags : List String
  extensions : List (String × String)
deriving DecidableEq

/-- `DEFAULT_MESSAGE_TYPE` in `utils/openapi.ts`. -/
def DEFAULT_MESSAGE_TYPE : String := "query"

/-- `getOperationsByType` (`utils/openapi.ts` lines 61-109): one operation
record per (path, method) pair in document order; `type` from the
`x-eventcatalog-message-type` extension with JS `||` defaulting, `action`
is `sends` exactly when the `x-eventcatalog-message-action` extension is
strictly equal to `"sends"`; extension entries with the
`x-eventcatalog-` prefix are carried verbatim. -/
def getOperationsByType (api : OpenAPIDocument) : List Operation :=
  api.paths.flatMap (fun pm =>
    pm.2.map (fun mo =>
      let openAPIOperation := mo.2
      let messageType := jsOr (lookupObj openAPIOperation.extensions "x-eventcatalog-message-type") DEFAULT_MESSAGE_TYPE
      let messageAction :=
        if lookupObj openAPIOperation.extensions "x-eventcatalog-message-action" = some "sends" then "sends" else "receives"
      { path := pm.1
        method := toUpperStr mo.1
        operationId := openAPIOperation.operationId
        externalDocs := openAPIOperation.externalDocs
        type := messageType
        action := messageAction
        description := openAPIOperation.description
        summary := openAPIOperation.summary
        tags := openAPIOperation.tags
        extensions := openAPIOperation.extensions.filter (fun kv => startsWithStr kv.1 "x-eventcatalog-") }))

/-- The schema bundle `getSchemasByOperationId` returns for an operation. -/
structure OpenAPIOperationSchemas where
  parameters : List Parameter
  requestBody : Option String
  responses : List RespEntry
deriving DecidableEq

/-- Scan of one path item's methods for a matching `operationId`
(JS `===` on two possibly-undefined values: `Option` equality). -/
def findSchemasInMethods : List (String × RawOperation) → Option String → Option OpenAPIOperationSchemas
  | [], _ => none
  | mo :: rest, oid =>
    if mo.2.operationId = oid then
      some { parameters := mo.2.parameters, requestBody := mo.2.requestBody, responses := mo.2.responses }
    else findSchemasInMethods rest oid

def findSchemasInPaths : List (String × List (String × RawOperation)) → Option String → Option OpenAPIOperationSchemas
  | [], _ => none
  | pm :: rest, oid =>
    match findSchemasInMethods pm.2 oid with
    | some s => some s
    | none => findSchemasInPaths rest oid

/-- `getSchemasByOperationId` (`utils/openapi.ts` lines 6-59): first
operation in document order whose `operationId` matches; the not-found
error is caught in the source and surfaces as `undefined` (`none`). -/
def getSchemasByOperationId (api : OpenAPIDocument) (operationId : Option String) : Option OpenAPIOperationSchemas :=
  findSchemasInPaths api.paths operationId

/-! ## Entity builders -/

structure Badge where
  content : String
  textColor : String
  backgroundColor : String
deriving DecidableEq

namespace Services

/-- `getSummary` (`utils/services.ts` lines 26-29). -/
def getSummary (document : OpenAPIDocument) : String :=
  let summary := (document.info.description).getD ""
  if strTruthy summary && decide (summary.length < 150) then summary else ""

/-- `defaultMarkdown` (`utils/services.ts` lines 6-24). -/
def defaultMarkdown (document : OpenAPIDocument) (_fileName : String) : String :=
  "\n\n" ++ (document.info.description).getD "" ++ "  \n\n## Architecture diagram\n<NodeGraph />\n\n" ++
  (match document.externalDocs with
   | some e => "\n## External documentation\n- [" ++ e.description ++ "](" ++ e.url ++ ")\n"
   | none => "") ++ "\n\n"

end Services

/-- The per-spec configuration entry (`services: [{id?, path, name?}]`). -/
structure ServiceConfig where
  id : Option String
  path : String
  name : Option String
deriving DecidableEq

/-- The service record `buildService` produces. -/
structure BuiltService where
  id : String
  version : String
  name : String
  summary : String
  schemaPath : String
  specifications : List (String × String)
  markdown : String
  badges : List Badge
deriving DecidableEq

namespace Services

/-- `buildService` (`utils/services.ts` lines 31-47). -/
def buildService (serviceOptions : ServiceConfig) (document : OpenAPIDocument) : BuiltService :=
  let schemaPath := let b := basename serviceOptions.path; if b = "" then "openapi.yml" else b
  let documentTags := (document.tags).getD []
  let serviceId := jsOr serviceOptions.id (slugify true true document.info.title)
  { id := serviceId
    version := document.info.version
    name := document.info.title
    summary := getSummary document
    schemaPath := schemaPath
    specifications := [("openapiPath", schemaPath)]
    markdown := defaultMarkdown document schemaPath
    badges := documentTags.map (fun tag => { content := tag.name, textColor := "blue", backgroundColor := "blue" }) }

end Services

namespace Messages

/-- `getSummary` (`utils/messages.ts` lines 86-97): the explicit summary
when truthy, else the description when truthy and shorter than 150
characters, else the empty string. -/
def getSummary (message : Operation) : String :=
  let messageSummary := (message.summary).getD ""
  let messageDescription := (message.description).getD ""
  let eventCatalogMessageSummary := messageSummary
  if eventCatalogMessageSummary = "" then
    if strTruthy messageDescription && decide (messageDescription.length < 150) then messageDescription else ""
  else eventCatalogMessageSummary

/-- `markdownForParameters` (`utils/messages.ts` lines 6-21). -/
def markdownForParameters (parameters : List Parameter) : String :=
  parameters.foldl
    (fun markdown parameter =>
      markdown ++ "- **" ++ parameter.name ++ "** (" ++ parameter.«in» ++ ")" ++
      (if parameter.required then " (required)" else "") ++
      (match parameter.description with
       | some d => ": " ++ d
       | none => "") ++ "\n")
    "### Parameters\n"

/-- `markdownForResponses` (`utils/messages.ts` lines 23-41); response
content is carried in serialised form, so `JSON.stringify` of the inline
case is the content itself. -/
def markdownForResponses (openAPIOperation : OpenAPIOperationSchemas) : String :=
  openAPIOperation.responses.foldl
    (fun markdown r =>
      markdown ++
      (if r.isSchema then
        "**" ++ r.statusCode ++ " Response**\n<SchemaViewer file=\"response-" ++ r.statusCode ++
          ".json\" maxHeight=\"500\" id=\"response-" ++ r.statusCode ++ "\" />\n      "
      else
        "**" ++ r.statusCode ++ " Response**\n      ```json\n" ++ r.content ++ "\n```\n            "))
    "### Responses\n"

/-- `defaultMarkdown` (`utils/messages.ts` lines 43-84); the `= {}` default
for an absent schema bundle is the empty bundle. -/
def defaultMarkdown (message : Operation) (openAPIOperation : OpenAPIOperationSchemas) : String :=
  "\n\n\n## Architecture\n<NodeGraph />\n\n" ++
  (match message.description with
   | some d => if d ≠ "" then "\n## Overview\n" ++ d ++ "\n" else ""
   | none => "") ++ "\n\n" ++
  (match message.externalDocs with
   | some e => "\n## External documentation\n- [" ++ e.description ++ "](" ++ e.url ++ ")\n"
   | none => "") ++ "\n\n## " ++ toUpperStr message.method ++ " `(" ++ message.path ++ ")`\n\n" ++
  (if openAPIOperation.parameters.length > 0 then markdownForParameters openAPIOperation.parameters else "") ++
  "\n\n" ++
  (match openAPIOperation.requestBody with
   | some _ => "\n### Request Body\n<SchemaViewer file=\"request-body.json\" maxHeight=\"500\" id=\"request-body\" />\n"
   | none => "") ++ "\n\n" ++ markdownForResponses openAPIOperation ++ "\n\n"

end Messages

/-- The empty schema bundle (the `= {}` default parameter of the message
markdown template). -/
def emptySchemas : OpenAPIOperationSchemas := { parameters := [], requestBody := none, responses := [] }

/-- The message record `buildMessage` produces (the spread part; the
schema bundle rides along in `requestBodiesAndResponses` exactly as in the
source's return value). -/
structure BuiltMessage where
  id : String
  version : String
  name : String
  summary : String
  markdown : String
  schemaPath : String
  badges : List Badge
  requestBodiesAndResponses : Option OpenAPIOperationSchemas
deriving DecidableEq

namespace Messages

/-- `buildMessage` (`utils/messages.ts` lines 99-129).  The source passes
the file path and re-dereferences it; dereferencing the same file yields
the same document, so the model takes the document directly. -/
def buildMessage (document : OpenAPIDocument) (operation : Operation) : BuiltMessage :=
  let requestBodiesAndResponses := getSchemasByOperationId document operation.operationId
  let extensions := operation.extensions
  let operationTags := operation.tags.map (fun badge =>
    { content := "tag:" ++ badge, textColor := "blue", backgroundColor := "blue" : Badge })
  let badges := { content := toUpperStr operation.method, textColor := "blue", backgroundColor := "blue" : Badge } :: operationTags
  let apiName := slugify true false document.info.title
  let path := jsPathSanitize operation.path
  let uniqueIdentifier0 := jsOr operation.operationId (apiName ++ "_" ++ operation.method)
  let uniqueIdentifier :=
    if !optTruthy operation.operationId && strTruthy path then uniqueIdentifier0 ++ "_" ++ path
    else uniqueIdentifier0
  { id := jsOr (lookupObj extensions "x-eventcatalog-message-id") uniqueIdentifier
    version := jsOr (lookupObj extensions "x-eventcatalog-message-version") document.info.version
    name := jsOr (lookupObj extensions "x-eventcatalog-message-name") uniqueIdentifier
    summary := getSummary operation
    markdown := defaultMarkdown operation (requestBodiesAndResponses.getD emptySchemas)
    schemaPath := match requestBodiesAndResponses with
      | some s => match s.requestBody with
        | some _ => "request-body.json"
        | none => ""
      | none => ""
    badges := badges
    requestBodiesAndResponses := requestBodiesAndResponses }

end Messages

/-! ## The catalog and the modelled SDK operations -/

/-- A `{id, version}` reference in a `sends`/`receives`/domain-services list. -/
structure MessageRef where
  id : String
  version : String
deriving DecidableEq

/-- A cataloged service record (the fields `src/index.ts` reads and writes). -/
structure SvcRecord where
  id : String
  version : String
  name : String
  summary : String
  schemaPath : String
  markdown : String
  specifications : List (String × String)
  badges : List Badge
  sends : List MessageRef
  receives : List MessageRef
  owners : List String
  repository : Option String
deriving DecidableEq

/-- A cataloged message record (event, command or query). -/
structure MsgRecord where
  id : String
  version : String
  name : String
  summary : String
  markdown : String
  schemaPath : String
  badges : List Badge
deriving DecidableEq

/-- A cataloged domain record. -/
structure DomainRecord where
  id : String
  name : String
  version : String
  markdown : String
  services : List MessageRef
deriving DecidableEq

/-- A file attached to a service or message. -/
structure AttachedFile where
  ownerId : String
  fileName : String
  content : String
  version : String
deriving DecidableEq

/-- A specification file as returned by `getSpecificationFilesForService`. -/
structure SpecFile where
  fileName : String
  content : String
deriving DecidableEq

/-- The catalog: current records per collection, archived (versioned)
records, and attached files.  `services` holds at most one current record
per id ("latest"). -/
structure Catalog where
  services : List SvcRecord
  versionedServices : List SvcRecord
  events : List MsgRecord
  commands : List MsgRecord
  queries : List MsgRecord
  versionedEvents : List MsgRecord
  versionedCommands : List MsgRecord
  versionedQueries : List MsgRecord
  domains : List DomainRecord
  versionedDomains : List DomainRecord
  serviceFiles : List AttachedFile
  eventFiles : List AttachedFile
  commandFiles : List AttachedFile
  queryFiles : List AttachedFile
deriving DecidableEq

/-- The three message collections of `utils/catalog-shorthand.ts`. -/
inductive MessageKind where
  | event
  | command
  | query
deriving DecidableEq

/-- `getMessageTypeUtils` (`utils/catalog-shorthand.ts` lines 7-51): the
lookup `messageTypeMap[messageType] || messageTypeMap.query` over the three
declared keys, selecting the collection whose SDK functions are returned. -/
def getMessageTypeUtils (messageType : String) : MessageKind :=
  if messageType = "event" then .event
  else if messageType = "command" then .command
  else .query

def msgColl (c : Catalog) : MessageKind → List MsgRecord
  | .event => c.events
  | .command => c.commands
  | .query => c.queries

def setMsgColl (c : Catalog) : MessageKind → List MsgRecord → Catalog
  | .event, l => { c with events := l }
  | .command, l => { c with commands := l }
  | .query, l => { c with queries := l }

def versionedMsgColl (c : Catalog) : MessageKind → List MsgRecord
  | .event => c.versionedEvents
  | .command => c.versionedCommands
  | .query => c.versionedQueries

def setVersionedMsgColl (c : Catalog) : MessageKind → List MsgRecord → Catalog
  | .event, l => { c with versionedEvents := l }
  | .command, l => { c with versionedCommands := l }
  | .query, l => { c with versionedQueries := l }

def msgFiles (c : Catalog) : MessageKind → List AttachedFile
  | .event => c.eventFiles
  | .command => c.commandFiles
  | .query => c.queryFiles

def setMsgFiles (c : Catalog) : MessageKind → List AttachedFile → Catalog
  | .event, l => { c with eventFiles := l }
  | .command, l => { c with commandFiles := l }
  | .query, l => { c with queryFiles := l }

/-- Modelled from the spec: the SDK's `getService(id, 'latest')` returns
the current cataloged service with that id, if any. -/
def getServiceC (c : Catalog) (id : String) : Option SvcRecord :=
  c.services.find? (fun s => s.id == id)

/-- Modelled from the spec: the SDK's `versionService` archives the current
record under its old version — it moves the current service with the given
id into the versioned collection, without mutating the archived copy. -/
def versionServiceC (c : Catalog) (id : String) : Catalog :=
  match c.services.find? (fun s => s.id == id) with
  | some l =>
    { c with
      services := c.services.filter (fun s => s.id != id)
      versionedServices := l :: c.versionedServices }
  | none => c

/-- Keep the first occurrence of each id, dropping later duplicates. -/
def dedupeByIdAux (seen : List String) : List MessageRef → List MessageRef
  | [] => []
  | r :: rs => if r.id ∈ seen then dedupeByIdAux seen rs else r :: dedupeByIdAux (r.id :: seen) rs

def dedupeById (l : List MessageRef) : List MessageRef := dedupeByIdAux [] l

/-- Modelled from the spec: the SDK's `writeService(record, {override: true})`
stores the record as the current version for its id, replacing any current
record with that id, and de-duplicates the `receives` and `sends` lists by
message id (the changelog notes the SDK "sets unique messages", and the
repository's tests pin first-occurrence-wins, prior-then-new order). -/
def writeServiceC (c : Catalog) (record : SvcRecord) : Catalog :=
  let record' := { record with receives := dedupeById record.receives, sends := dedupeById record.sends }
  { c with services := record' :: c.services.filter (fun s => s.id != record.id) }

/-- Modelled from the spec: the SDK's `addFileToService` attaches a file to
the service at the given version. -/
def addFileToServiceC (c : Catalog) (id : String) (file : SpecFile) (version : String) : Catalog :=
  { c with serviceFiles := c.serviceFiles ++ [{ ownerId := id, fileName := file.fileName, content := file.content, version := version }] }

/-- Modelled from the spec: the SDK's `getSpecificationFilesForService(id,
'latest')` returns the specification files previously attached to the
current version of the service. -/
def getSpecificationFilesForServiceC (c : Catalog) (id : String) : List SpecFile :=
  match getServiceC c id with
  | some l =>
    (c.serviceFiles.filter (fun f => f.ownerId == id && f.version == l.version)).map
      (fun f => { fileName := f.fileName, content := f.content })
  | none => []

/-- Modelled from the spec: the SDK's `getMessage(id, 'latest')` of the
selected kind (`getEvent`/`getCommand`/`getQuery`). -/
def getMessageC (c : Catalog) (kind : MessageKind) (id : String) : Option MsgRecord :=
  (msgColl c kind).find? (fun m => m.id == id)

/-- Modelled from the spec: the SDK's `versionMessage` of the selected kind
archives the current message record under its old version. -/
def versionMessageC (c : Catalog) (kind : MessageKind) (id : String) : Catalog :=
  match (msgColl c kind).find? (fun m => m.id == id) with
  | some l =>
    setVersionedMsgColl (setMsgColl c kind ((msgColl c kind).filter (fun m => m.id != id))) kind
      (l :: versionedMsgColl c kind)
  | none => c

/-- Modelled from the spec: the SDK's `writeMessage(record, {path, override:
true})` of the selected kind replaces the current record with that id. -/
def writeMessageC (c : Catalog) (kind : MessageKind) (record : MsgRecord) : Catalog :=
  setMsgColl c kind (record :: (msgColl c kind).filter (fun m => m.id != record.id))

/-- Modelled from the spec: the SDK's `addFileToMessage` of the selected
kind attaches a file to the message at the given version. -/
def addFileToMessageC (c : Catalog) (kind : MessageKind) (id fileName content version : String) : Catalog :=
  setMsgFiles c kind (msgFiles c kind ++ [{ ownerId := id, fileName := fileName, content := content, version := version }])

/-- Modelled from the spec: the SDK's `getDomain(id, version)`; `'latest'`
resolves to the current record, a concrete version looks the current record
up first and falls back to the archived ones. -/
def getDomainC (c : Catalog) (id ver : String) : Option DomainRecord :=
  if ver = "latest" then c.domains.find? (fun d => d.id == id)
  else
    match c.domains.find? (fun d => d.id == id) with
    | some dm => if dm.version = ver then some dm else c.versionedDomains.find? (fun d => d.id == id && d.version == ver)
    | none => c.versionedDomains.find? (fun d => d.id == id && d.version == ver)

/-- Modelled from the spec: the SDK's `versionDomain` archives the current
domain record. -/
def versionDomainC (c : Catalog) (id : String) : Catalog :=
  match c.domains.find? (fun d => d.id == id) with
  | some l =>
    { c with
      domains := c.domains.filter (fun d => d.id != id)
      versionedDomains := l :: c.versionedDomains }
  | none => c

/-- Modelled from the spec: the SDK's `writeDomain` stores the record as the
current domain for its id. -/
def writeDomainC (c : Catalog) (record : DomainRecord) : Catalog :=
  { c with domains := record :: c.domains.filter (fun d => d.id != record.id) }

/-- Modelled from the spec: the SDK's `addServiceToDomain` appends the
service reference to the domain record at the given version (the spec notes
no dedupe is performed by the reconciler). -/
def addServiceToDomainC (c : Catalog) (id : String) (ref : MessageRef) (ver : String) : Catalog :=
  { c with domains := c.domains.map (fun d => if d.id == id && d.version == ver then { d with services := d.services ++ [ref] } else d) }

/-- Modelled from the spec: `defaultMarkdown` of `utils/domains.ts` (a file
of this repository not present under `src/`); per the spec a new domain is
created "with empty/default markdown", a fixed template independent of the
document. -/
def domainDefaultMarkdown : String := "\n\n## Architecture diagram\n<NodeGraph />\n\n"

/-! ## The plugin pipeline (`src/index.ts`, current revision) -/

/-- One configured spec as the plugin sees it, with the external parser's
outcome as part of the input. `parse = none` models a
`SwaggerParser.validate` failure; `raw` is the on-disk (or fetched) bytes
returned by `getRawSpecFile`. -/
structure SpecInput where
  id : Option String
  path : String
  name : Option String
  parse : Option OpenAPIDocument
  raw : String
deriving DecidableEq

/-- The `domain` option (`{id, name, version}`). -/
structure DomainConfig where
  id : String
  name : String
  version : String
deriving DecidableEq

/-- The plugin options (`Props` in `src/index.ts`). -/
structure GeneratorProps where
  services : List SpecInput
  domain : Option DomainConfig
  saveParsedSpecFile : Bool
deriving DecidableEq

/-- Modelled rendering of `getParsedSpecFile` (`src/index.ts` lines
256-259): `JSON.stringify` / `yaml.dump` of the dereferenced document,
collapsed to an executable placeholder; no claim inspects the rendering. -/
def getParsedSpecFile (service : SpecInput) (document : OpenAPIDocument) : String :=
  (if endsWithStr service.path ".json" then "parsed-json:" else "parsed-yaml:") ++
    document.info.title ++ ":" ++ document.info.version

/-- State threaded through `processMessagesForOpenAPISpec`: the catalog,
the log lines emitted so far, and the accumulated `receives`/`sends`. -/
structure MsgState where
  catalog : Catalog
  logs : List String
  receives : List MessageRef
  sends : List MessageRef
deriving DecidableEq

/-- The loop body of `processMessagesForOpenAPISpec` (`src/index.ts` lines
180-252): build the message, preserve cataloged markdown, version on a
version mismatch, write the message, bucket its reference into
`sends`/`receives` by the operation's action, and attach request/response
files. -/
def processOperation (document : OpenAPIDocument) (st : MsgState) (operation : Operation) : MsgState :=
  let version := document.info.version
  let message := Messages.buildMessage document operation
  let requestBodiesAndResponses := message.requestBodiesAndResponses
  let kind := getMessageTypeUtils operation.type
  let catalogedMessage := getMessageC st.catalog kind message.id
  let messageMarkdown :=
    match catalogedMessage with
    | some cm => cm.markdown
    | none => message.markdown
  let c :=
    match catalogedMessage with
    | some cm => if cm.version ≠ version then versionMessageC st.catalog kind message.id else st.catalog
    | none => st.catalog
  let versionLogs :=
    match catalogedMessage with
    | some cm => if cm.version ≠ version then [" - Versioned previous message: (v" ++ cm.version ++ ")"] else []
    | none => []
  let c := writeMessageC c kind
    { id := message.id, version := message.version, name := message.name, summary := message.summary
      markdown := messageMarkdown, schemaPath := message.schemaPath, badges := message.badges }
  let receives :=
    if operation.action = "sends" then st.receives
    else st.receives ++ [{ id := message.id, version := message.version }]
  let sends :=
    if operation.action = "sends" then st.sends ++ [{ id := message.id, version := message.version }]
    else st.sends
  let c :=
    match requestBodiesAndResponses with
    | some s =>
      match s.requestBody with
      | some rb => addFileToMessageC c kind message.id "request-body.json" rb message.version
      | none => c
    | none => c
  let c :=
    match requestBodiesAndResponses with
    | some s =>
      s.responses.foldl
        (fun c r => addFileToMessageC c kind message.id ("response-" ++ r.statusCode ++ ".json") r.content message.version) c
    | none => c
  let warnLogs :=
    if optTruthy operation.operationId then []
    else ["  - OperationId not found for " ++ operation.method ++ " " ++ operation.path ++ ", creating one..."
          , "  - Use operationIds to give better unique names for EventCatalog"]
  { catalog := c
    logs := st.logs ++ ["Processing message: " ++ message.name ++ " (v" ++ version ++ ")"] ++ versionLogs ++
      [" - Message (v" ++ version ++ ") created"] ++ warnLogs
    receives := receives
    sends := sends }

/-- `processMessagesForOpenAPISpec` (`src/index.ts` lines 173-254). -/
def processMessagesForOpenAPISpec (c : Catalog) (document : OpenAPIDocument) : MsgState :=
  (getOperationsByType document).foldl (processOperation document)
    { catalog := c, logs := [], receives := [], sends := [] }

/-- The `{id, version}` reference an operation's freshly built message
contributes to `sends`/`receives`. -/
def opMessageRef (document : OpenAPIDocument) (operation : Operation) : MessageRef :=
  { id := (Messages.buildMessage document operation).id
    version := (Messages.buildMessage document operation).version }

/-- The `receives` list derived from the document alone: one reference per
operation not marked `sends`, in document order. -/
def receivesDerived (document : OpenAPIDocument) : List MessageRef :=
  (getOperationsByType document).filterMap
    (fun op => if op.action = "sends" then none else some (opMessageRef document op))

/-- The `sends` list derived from the document alone: one reference per
operation marked `sends`, in document order. -/
def sendsDerived (document : OpenAPIDocument) : List MessageRef :=
  (getOperationsByType document).filterMap
    (fun op => if op.action = "sends" then some (opMessageRef document op) else none)

/-- The domain block of the plugin entry (`src/index.ts` lines 69-100). -/
def processDomain (c : Catalog) (d : DomainConfig) (service : BuiltService) : Catalog × List String :=
  let domain := getDomainC c d.id (if d.version = "" then "latest" else d.version)
  let currentDomain := getDomainC c d.id "latest"
  let logs0 := ["Processing domain: " ++ d.name ++ " (v" ++ d.version ++ ")"]
  let c1 :=
    match currentDomain with
    | some cur => if cur.version ≠ d.version then versionDomainC c d.id else c
    | none => c
  let logs1 := logs0 ++
    (match currentDomain with
     | some cur => if cur.version ≠ d.version then [" - Versioned previous domain (v" ++ cur.version ++ ")"] else []
     | none => [])
  let needCreate : Bool := domain.isNone || decide ((domain.map (fun dm => dm.version)) ≠ some d.version)
  let c2 :=
    if needCreate then
      writeDomainC c1 { id := d.id, name := d.name, version := d.version, markdown := domainDefaultMarkdown, services := [] }
    else c1
  let logs2 := logs1 ++ (if needCreate then [" - Domain (v" ++ d.version ++ ") created"] else [])
  let logs3 := logs2 ++
    (match currentDomain with
     | some cur => if cur.version = d.version then [" - Domain (v" ++ d.version ++ ") already exists, skipped creation..."] else []
     | none => [])
  (addServiceToDomainC c2 d.id { id := service.id, version := service.version } d.version, logs3)

/-- The merged service record the plugin writes back (`src/index.ts` lines
64-66 and 104-146, gathered from the source's sequential reassignments):
fresh fields from `buildService`, with markdown, specifications, `sends`,
`receives`, owners and repository adjusted from the cataloged latest
record when one exists. -/
def mergeServiceRecord (service : BuiltService) (freshSends freshReceives : List MessageRef)
    (latest : Option SvcRecord) : SvcRecord :=
  match latest with
  | none =>
    { id := service.id, version := service.version, name := service.name, summary := service.summary
      schemaPath := service.schemaPath, markdown := service.markdown
      specifications := service.specifications, badges := service.badges
      sends := freshSends, receives := freshReceives, owners := [], repository := none }
  | some l =>
    { id := service.id, version := service.version, name := service.name, summary := service.summary
      schemaPath := service.schemaPath, markdown := l.markdown
      specifications := objSpread service.specifications l.specifications, badges := service.badges
      sends := l.sends
      receives := if l.version = service.version then l.receives ++ freshReceives else freshReceives
      owners := l.owners, repository := l.repository }

/-- The `options.domain` gate of the plugin entry (`src/index.ts` line 69):
the domain block runs only when a domain is configured. -/
def domainStep (od : Option DomainConfig) (c : Catalog) (service : BuiltService) : Catalog × List String :=
  match od with
  | some d => processDomain c d service
  | none => (c, [])

/-- The service-versioning branch of the plugin entry (`src/index.ts` lines
123-127): when a cataloged latest service exists and its version differs
from the parsed one, the cataloged record is archived. -/
def versionStep (latest : Option SvcRecord) (version : String) (c : Catalog) (id : String) : Catalog × List String :=
  match latest with
  | some l =>
    if l.version ≠ version then (versionServiceC c id, [" - Versioned previous service (v" ++ l.version ++ ")"])
    else (c, [])
  | none => (c, [])

/-- Processing of one successfully validated spec (`src/index.ts` lines
60-169). -/
def processSpecParsed (options : GeneratorProps) (serviceSpec : SpecInput) (document : OpenAPIDocument)
    (c : Catalog) : Catalog × List String :=
  let version := document.info.version
  let service := Services.buildService { id := serviceSpec.id, path := serviceSpec.path, name := serviceSpec.name } document
  let dres := domainStep options.domain c service
  let mst := processMessagesForOpenAPISpec dres.1 document
  let latestServiceInCatalog := getServiceC mst.catalog service.id
  let svcLogs := ["Processing service: " ++ document.info.title ++ " (v" ++ version ++ ")"]
  let serviceSpecificationsFiles :=
    match latestServiceInCatalog with
    | some _ => getSpecificationFilesForServiceC mst.catalog service.id
    | none => []
  let vres := versionStep latestServiceInCatalog version mst.catalog service.id
  let c2 := writeServiceC vres.1 (mergeServiceRecord service mst.sends mst.receives latestServiceInCatalog)
  let specFiles := serviceSpecificationsFiles ++
    [{ fileName := service.schemaPath
       content := if options.saveParsedSpecFile then getParsedSpecFile serviceSpec document else serviceSpec.raw }]
  let c3 := specFiles.foldl (fun c f => addFileToServiceC c service.id f version) c2
  (c3, dres.2 ++ mst.logs ++ svcLogs ++ vres.2 ++ [" - Service (v" ++ version ++ ") created"])

/-- Processing of one configured spec, including the validation gate
(`src/index.ts` lines 49-58): a validation failure is logged and the spec
is skipped (`continue`), leaving the catalog untouched. -/
def processSpec (options : GeneratorProps) (c : Catalog) (serviceSpec : SpecInput) : Catalog × List String :=
  match serviceSpec.parse with
  | none => (c, ["Processing " ++ serviceSpec.path, "Failed to parse OpenAPI file: " ++ serviceSpec.path])
  | some document =>
    let r := processSpecParsed options serviceSpec document c
    (r.1, ("Processing " ++ serviceSpec.path) :: r.2)

/-- The `for (const serviceSpec of services)` loop: specs processed
strictly in configuration order, logs accumulated. -/
def runSpecs (options : GeneratorProps) (c : Catalog) (specs : List SpecInput) : Catalog × List String :=
  specs.foldl
    (fun acc spec =>
      let r := processSpec options acc.1 spec
      (r.1, acc.2 ++ r.2))
    (c, [])

/-- The `PROJECT_DIR` resolution of the current plugin entry (`src/index.ts`
lines 25-31): a falsy value is first defaulted to `process.cwd()`, and only
then re-checked; `cwd` is what `process.cwd()` returns (never empty). -/
def resolveProjectDir (env : Option String) (cwd : String) : Except String String :=
  let env := if !optTruthy env then some cwd else env
  if optTruthy env then .ok (jsOr env cwd)
  else .error "Please provide catalog url (env variable PROJECT_DIR)"

/-- The `PROJECT_DIR` guard of the legacy plugin entry (the older
`src/index.ts` snapshot, lines 45-47), which throws when the variable is
absent instead of defaulting it. -/
def legacyResolveProjectDir (env : Option String) : Except String String :=
  if !optTruthy env then .error "Please provide catalog url (env variable PROJECT_DIR)"
  else .ok (jsOr env "")

/-- The plugin entry: resolve `PROJECT_DIR`, then process every configured
spec in order. -/
def runGenerator (env : Option String) (cwd : String) (options : GeneratorProps) (c : Catalog) :
    Except String (Catalog × List String) :=
  match resolveProjectDir env cwd with
  | .error e => .error e
  | .ok _ => .ok (runSpecs options c options.services)

/-- The service record `buildService` derives for one configured spec. -/
def builtServiceOf (serviceSpec : SpecInput) (document : OpenAPIDocument) : BuiltService :=
  Services.buildService { id := serviceSpec.id, path := serviceSpec.path, name := serviceSpec.name } document

/-- The current service record the run leaves in the catalog: the merged
record, with the SDK's de-duplication applied. -/
def writtenServiceRecord (serviceSpec : SpecInput) (document : OpenAPIDocument) (prior : Option SvcRecord) : SvcRecord :=
  let merged := mergeServiceRecord (builtServiceOf serviceSpec document)
    (sendsDerived document) (receivesDerived document) prior
  { merged with receives := dedupeById merged.receives, sends := dedupeById merged.sends }

/-! ## Concrete fixtures for witnesses and counterexamples -/

def exOpList : RawOperation :=
  { operationId := some "listPets", summary := some "List all pets", description := none
    tags := ["pets"], externalDocs := none, extensions := []
    parameters := [], requestBody := none
    responses := [{ statusCode := "200", content := "PetsSchema", isSchema := true }] }

def exOpVaccinate : RawOperation :=
  { operationId := some "petVaccinated", summary := none, description := some "Notifies a vaccination"
    tags := [], externalDocs := none
    extensions := [("x-eventcatalog-message-action", "sends"), ("x-eventcatalog-message-type", "event")]
    parameters := [], requestBody := some "VaccinationSchema", responses := [] }

def exDoc : OpenAPIDocument :=
  { info := { title := "Swagger Petstore", version := "1.0.0", description := some "Sample petstore API" }
    tags := none, externalDocs := none
    paths := [("/pets", [("get", exOpList)]), ("/pets/vaccinate", [("post", exOpVaccinate)])] }

def exSpec : SpecInput :=
  { id := some "swagger-petstore", path := "specs/petstore.yml", name := none
    parse := some exDoc, raw := "raw petstore contents" }

def exBadSpec : SpecInput :=
  { id := some "broken", path := "specs/broken.yml", name := none, parse := none, raw := "not openapi" }

def exOptions : GeneratorProps := { services := [exSpec], domain := none, saveParsedSpecFile := false }

def emptyCatalog : Catalog :=
  { services := [], versionedServices := [], events := [], commands := [], queries := []
    versionedEvents := [], versionedCommands := [], versionedQueries := []
    domains := [], versionedDomains := [], serviceFiles := []
    eventFiles := [], commandFiles := [], queryFiles := [] }

/-- A previously cataloged service for the petstore id, parameterised by
version, specifications and message lists. -/
def priorService (v : String) (specs : List (String × String)) (sends receives : List MessageRef) : SvcRecord :=
  { id := "swagger-petstore", version := v, name := "Random Name", summary := "old summary"
    schemaPath := "old.yml", markdown := "original markdown, do not override"
    specifications := specs, badges := [], sends := sends, receives := receives
    owners := ["team-a"], repository := some "repo-url" }

def catalogWith (svc : SvcRecord) : Catalog := { emptyCatalog with services := [svc] }

/-! ## Helper lemmas: catalog-field preservation -/

theorem foldl_fixed {α β γ : Type} (proj : α → γ) (f : α → β → α)
    (h : ∀ a b, proj (f a b) = proj a) : ∀ (l : List β) (a : α), proj (l.foldl f a) = proj a := by
  intro l
  induction l with
  | nil => intro a; rfl
  | cons x xs ih => intro a; rw [List.foldl_cons, ih, h]

@[simp] theorem setMsgColl_services (c : Catalog) (k : MessageKind) (l : List MsgRecord) :
    (setMsgColl c k l).services = c.services := by cases k <;> rfl

@[simp] theorem setMsgColl_versionedServices (c : Catalog) (k : MessageKind) (l : List MsgRecord) :
    (setMsgColl c k l).versionedServices = c.versionedServices := by cases k <;> rfl

@[simp] theorem setMsgColl_domains (c : Catalog) (k : MessageKind) (l : List MsgRecord) :
    (setMsgColl c k l).domains = c.domains := by cases k <;> rfl

@[simp] theorem setMsgColl_versionedDomains (c : Catalog) (k : MessageKind) (l : List MsgRecord) :
    (setMsgColl c k l).versionedDomains = c.versionedDomains := by cases k <;> rfl

@[simp] theorem setMsgColl_serviceFiles (c : Catalog) (k : MessageKind) (l : List MsgRecord) :
    (setMsgColl c k l).serviceFiles = c.serviceFiles := by cases k <;> rfl

@[simp] theorem setVersionedMsgColl_services (c : Catalog) (k : MessageKind) (l : List MsgRecord) :
    (setVersionedMsgColl c k l).services = c.services := by cases k <;> rfl

@[simp] theorem setVersionedMsgColl_versionedServices (c : Catalog) (k : MessageKind) (l : List MsgRecord) :
    (setVersionedMsgColl c k l).versionedServices = c.versionedServices := by cases k <;> rfl

@[simp] theorem setVersionedMsgColl_domains (c : Catalog) (k : MessageKind) (l : List MsgRecord) :
    (setVersionedMsgColl c k l).domains = c.domains := by cases k <;> rfl

@[simp] theorem setVersionedMsgColl_versionedDomains (c : Catalog) (k : MessageKind) (l : List MsgRecord) :
    (setVersionedMsgColl c k l).versionedDomains = c.versionedDomains := by cases k <;> rfl

@[simp] theorem setVersionedMsgColl_serviceFiles (c : Catalog) (k : MessageKind) (l : List MsgRecord) :
    (setVersionedMsgColl c k l).serviceFiles = c.serviceFiles := by cases k <;> rfl

@[simp] theorem setMsgFiles_services (c : Catalog) (k : MessageKind) (l : List AttachedFile) :
    (setMsgFiles c k l).services = c.services := by cases k <;> rfl

@[simp] theorem setMsgFiles_versionedServices (c : Catalog) (k : MessageKind) (l : List AttachedFile) :
    (setMsgFiles c k l).versionedServices = c.versionedServices := by cases k <;> rfl

@[simp] theorem setMsgFiles_domains (c : Catalog) (k : MessageKind) (l : List AttachedFile) :
    (setMsgFiles c k l).domains = c.domains := by cases k <;> rfl

@[simp] theorem setMsgFiles_versionedDomains (c : Catalog) (k : MessageKind) (l : List AttachedFile) :
    (setMsgFiles c k l).versionedDomains = c.versionedDomains := by cases k <;> rfl

@[simp] theorem setMsgFiles_serviceFiles (c : Catalog) (k : MessageKind) (l : List AttachedFile) :
    (setMsgFiles c k l).serviceFiles = c.serviceFiles := by cases k <;> rfl

@[simp] theorem setMsgFiles_msgColl (c : Catalog) (k : MessageKind) (l : List AttachedFile) (k' : MessageKind) :
    msgColl (setMsgFiles c k l) k' = msgColl c k' := by cases k <;> cases k' <;> rfl

@[simp] theorem versionMessageC_services (c : Catalog) (k : MessageKind) (id : String) :
    (versionMessageC c k id).services = c.services := by
  unfold versionMessageC; split <;> simp

@[simp] theorem versionMessageC_versionedServices (c : Catalog) (k : MessageKind) (id : String) :
    (versionMessageC c k id).versionedServices = c.versionedServices := by
  unfold versionMessageC; split <;> simp

@[simp] theorem versionMessageC_domains (c : Catalog) (k : MessageKind) (id : String) :
    (versionMessageC c k id).domains = c.domains := by
  unfold versionMessageC; split <;> simp

@[simp] theorem versionMessageC_versionedDomains (c : Catalog) (k : MessageKind) (id : String) :
    (versionMessageC c k id).versionedDomains = c.versionedDomains := by
  unfold versionMessageC; split <;> simp

@[simp] theorem versionMessageC_serviceFiles (c : Catalog) (k : MessageKind) (id : String) :
    (versionMessageC c k id).serviceFiles = c.serviceFiles := by
  unfold versionMessageC; split <;> simp

@[simp] theorem writeMessageC_services (c : Catalog) (k : MessageKind) (m : MsgRecord) :
    (writeMessageC c k m).services = c.services := by
  unfold writeMessageC; simp

@[simp] theorem writeMessageC_versionedServices (c : Catalog) (k : MessageKind) (m : MsgRecord) :
    (writeMessageC c k m).versionedServices = c.versionedServices := by
  unfold writeMessageC; simp

@[simp] theorem writeMessageC_domains (c : Catalog) (k : MessageKind) (m : MsgRecord) :
    (writeMessageC c k m).domains = c.domains := by
  unfold writeMessageC; simp

@[simp] theorem writeMessageC_versionedDomains (c : Catalog) (k : MessageKind) (m : MsgRecord) :
    (writeMessageC c k m).versionedDomains = c.versionedDomains := by
  unfold writeMessageC; simp

@[simp] theorem writeMessageC_serviceFiles (c : Catalog) (k : MessageKind) (m : MsgRecord) :
    (writeMessageC c k m).serviceFiles = c.serviceFiles := by
  unfold writeMessageC; simp

@[simp] theorem addFileToMessageC_services (c : Catalog) (k : MessageKind) (a b d e : String) :
    (addFileToMessageC c k a b d e).services = c.services := by
  unfold addFileToMessageC; simp

@[simp] theorem addFileToMessageC_versionedServices (c : Catalog) (k : MessageKind) (a b d e : String) :
    (addFileToMessageC c k a b d e).versionedServices = c.versionedServices := by
  unfold addFileToMessageC; simp

@[simp] theorem addFileToMessageC_domains (c : Catalog) (k : MessageKind) (a b d e : String) :
    (addFileToMessageC c k a b d e).domains = c.domains := by
  unfold addFileToMessageC; simp

@[simp] theorem addFileToMessageC_versionedDomains (c : Catalog) (k : MessageKind) (a b d e : String) :
    (addFileToMessageC c k a b d e).versionedDomains = c.versionedDomains := by
  unfold addFileToMessageC; simp

@[simp] theorem addFileToMessageC_serviceFiles (c : Catalog) (k : MessageKind) (a b d e : String) :
    (addFileToMessageC c k a b d e).serviceFiles = c.serviceFiles := by
  unfold addFileToMessageC; simp

@[simp] theorem addFileToMessageC_msgColl (c : Catalog) (k : MessageKind) (a b d e : String) (k' : MessageKind) :
    msgColl (addFileToMessageC c k a b d e) k' = msgColl c k' := by
  unfold addFileToMessageC; simp

theorem foldl_addFile_services (k : MessageKind) (id v : String) (c : Catalog) (rs : List RespEntry) :
    (rs.foldl (fun c r => addFileToMessageC c k id ("response-" ++ r.statusCode ++ ".json") r.content v) c).services
      = c.services :=
  foldl_fixed (fun c => c.services) _ (fun _ _ => by simp) rs c

theorem foldl_addFile_versionedServices (k : MessageKind) (id v : String) (c : Catalog) (rs : List RespEntry) :
    (rs.foldl (fun c r => addFileToMessageC c k id ("response-" ++ r.statusCode ++ ".json") r.content v) c).versionedServices
      = c.versionedServices :=
  foldl_fixed (fun c => c.versionedServices) _ (fun _ _ => by simp) rs c

theorem foldl_addFile_domains (k : MessageKind) (id v : String) (c : Catalog) (rs : List RespEntry) :
    (rs.foldl (fun c r => addFileToMessageC c k id ("response-" ++ r.statusCode ++ ".json") r.content v) c).domains
      = c.domains :=
  foldl_fixed (fun c => c.domains) _ (fun _ _ => by simp) rs c

theorem foldl_addFile_versionedDomains (k : MessageKind) (id v : String) (c : Catalog) (rs : List RespEntry) :
    (rs.foldl (fun c r => addFileToMessageC c k id ("response-" ++ r.statusCode ++ ".json") r.content v) c).versionedDomains
      = c.versionedDomains :=
  foldl_fixed (fun c => c.versionedDomains) _ (fun _ _ => by simp) rs c

theorem foldl_addFile_serviceFiles (k : MessageKind) (id v : String) (c : Catalog) (rs : List RespEntry) :
    (rs.foldl (fun c r => addFileToMessageC c k id ("response-" ++ r.statusCode ++ ".json") r.content v) c).serviceFiles
      = c.serviceFiles :=
  foldl_fixed (fun c => c.serviceFiles) _ (fun _ _ => by simp) rs c

theorem foldl_addFile_msgColl (k : MessageKind) (id v : String) (c : Catalog) (rs : List RespEntry) (k' : MessageKind) :
    msgColl (rs.foldl (fun c r => addFileToMessageC c k id ("response-" ++ r.statusCode ++ ".json") r.content v) c) k'
      = msgColl c k' :=
  foldl_fixed (fun c => msgColl c k') _ (fun _ _ => by simp) rs c

theorem processOperation_services (document : OpenAPIDocument) (st : MsgState) (op : Operation) :
    (processOperation document st op).catalog.services = st.catalog.services := by
  unfold processOperation
  dsimp only
  repeat' split
  all_goals simp [foldl_addFile_services]

theorem processOperation_versionedServices (document : OpenAPIDocument) (st : MsgState) (op : Operation) :
    (processOperation document st op).catalog.versionedServices = st.catalog.versionedServices := by
  unfold processOperation
  dsimp only
  repeat' split
  all_goals simp [foldl_addFile_versionedServices]

theorem processOperation_domains (document : OpenAPIDocument) (st : MsgState) (op : Operation) :
    (processOperation document st op).catalog.domains = st.catalog.domains := by
  unfold processOperation
  dsimp only
  repeat' split
  all_goals simp [foldl_addFile_domains]

theorem processOperation_versionedDomains (document : OpenAPIDocument) (st : MsgState) (op : Operation) :
    (processOperation document st op).catalog.versionedDomains = st.catalog.versionedDomains := by
  unfold processOperation
  dsimp only
  repeat' split
  all_goals simp [foldl_addFile_versionedDomains]

theorem processOperation_serviceFiles (document : OpenAPIDocument) (st : MsgState) (op : Operation) :
    (processOperation document st op).catalog.serviceFiles = st.catalog.serviceFiles := by
  unfold processOperation
  dsimp only
  repeat' split
  all_goals simp [foldl_addFile_serviceFiles]

theorem processOperation_receives (document : OpenAPIDocument) (st : MsgState) (op : Operation) :
    (processOperation document st op).receives =
      st.receives ++ (if op.action = "sends" then [] else [opMessageRef document op]) := by
  unfold processOperation opMessageRef
  dsimp only
  by_cases h : op.action = "sends" <;> simp [h]

theorem processOperation_sends (document : OpenAPIDocument) (st : MsgState) (op : Operation) :
    (processOperation document st op).sends =
      st.sends ++ (if op.action = "sends" then [opMessageRef document op] else []) := by
  unfold processOperation opMessageRef
  dsimp only
  by_cases h : op.action = "sends" <;> simp [h]

theorem foldl_processOperation_services (document : OpenAPIDocument) :
    ∀ (ops : List Operation) (st : MsgState),
      ((ops.foldl (processOperation document) st).catalog).services = st.catalog.services :=
  fun ops st => foldl_fixed (fun s => s.catalog.services) _ (processOperation_services document) ops st

theorem foldl_processOperation_versionedServices (document : OpenAPIDocument) :
    ∀ (ops : List Operation) (st : MsgState),
      ((ops.foldl (processOperation document) st).catalog).versionedServices = st.catalog.versionedServices :=
  fun ops st => foldl_fixed (fun s => s.catalog.versionedServices) _ (processOperation_versionedServices document) ops st

theorem foldl_processOperation_domains (document : OpenAPIDocument) :
    ∀ (ops : List Operation) (st : MsgState),
      ((ops.foldl (processOperation document) st).catalog).domains = st.catalog.domains :=
  fun ops st => foldl_fixed (fun s => s.catalog.domains) _ (processOperation_domains document) ops st

theorem foldl_processOperation_versionedDomains (document : OpenAPIDocument) :
    ∀ (ops : List Operation) (st : MsgState),
      ((ops.foldl (processOperation document) st).catalog).versionedDomains = st.catalog.versionedDomains :=
  fun ops st => foldl_fixed (fun s => s.catalog.versionedDomains) _ (processOperation_versionedDomains document) ops st

theorem foldl_processOperation_serviceFiles (document : OpenAPIDocument) :
    ∀ (ops : List Operation) (st : MsgState),
      ((ops.foldl (processOperation document) st).catalog).serviceFiles = st.catalog.serviceFiles :=
  fun ops st => foldl_fixed (fun s => s.catalog.serviceFiles) _ (processOperation_serviceFiles document) ops st

theorem processMessages_services (c : Catalog) (document : OpenAPIDocument) :
    (processMessagesForOpenAPISpec c document).catalog.services = c.services := by
  unfold processMessagesForOpenAPISpec
  exact foldl_processOperation_services document _ _

theorem processMessages_versionedServices (c : Catalog) (document : OpenAPIDocument) :
    (processMessagesForOpenAPISpec c document).catalog.versionedServices = c.versionedServices := by
  unfold processMessagesForOpenAPISpec
  exact foldl_processOperation_versionedServices document _ _

theorem processMessages_serviceFiles (c : Catalog) (document : OpenAPIDocument) :
    (processMessagesForOpenAPISpec c document).catalog.serviceFiles = c.serviceFiles := by
  unfold processMessagesForOpenAPISpec
  exact foldl_processOperation_serviceFiles document _ _

theorem foldl_processOperation_receives (document : OpenAPIDocument) :
    ∀ (ops : List Operation) (st : MsgState),
      (ops.foldl (processOperation document) st).receives =
        st.receives ++ ops.filterMap (fun op => if op.action = "sends" then none else some (opMessageRef document op)) := by
  intro ops
  induction ops with
  | nil => intro st; simp
  | cons op rest ih =>
    intro st
    rw [List.foldl_cons, ih, List.filterMap_cons]
    by_cases h : op.action = "sends"
    · simp [h, processOperation_receives]
    · simp [h, processOperation_receives]

theorem foldl_processOperation_sends (document : OpenAPIDocument) :
    ∀ (ops : List Operation) (st : MsgState),
      (ops.foldl (processOperation document) st).sends =
        st.sends ++ ops.filterMap (fun op => if op.action = "sends" then some (opMessageRef document op) else none) := by
  intro ops
  induction ops with
  | nil => intro st; simp
  | cons op rest ih =>
    intro st
    rw [List.foldl_cons, ih, List.filterMap_cons]
    by_cases h : op.action = "sends"
    · simp [h, processOperation_sends]
    · simp [h, processOperation_sends]

theorem processMessages_receives (c : Catalog) (document : OpenAPIDocument) :
    (processMessagesForOpenAPISpec c document).receives = receivesDerived document := by
  unfold processMessagesForOpenAPISpec receivesDerived
  rw [foldl_processOperation_receives]
  simp

theorem processMessages_sends (c : Catalog) (document : OpenAPIDocument) :
    (processMessagesForOpenAPISpec c document).sends = sendsDerived document := by
  unfold processMessagesForOpenAPISpec sendsDerived
  rw [foldl_processOperation_sends]
  simp

/-! ## Helper lemmas: service/domain SDK operations -/

@[simp] theorem writeServiceC_versionedServices (c : Catalog) (r : SvcRecord) :
    (writeServiceC c r).versionedServices = c.versionedServices := rfl

@[simp] theorem writeServiceC_domains (c : Catalog) (r : SvcRecord) :
    (writeServiceC c r).domains = c.domains := rfl

theorem versionServiceC_versionedServices_of_find (c : Catalog) (id : String) (l : SvcRecord)
    (h : getServiceC c id = some l) :
    (versionServiceC c id).versionedServices = l :: c.versionedServices := by
  unfold versionServiceC
  unfold getServiceC at h
  rw [h]

@[simp] theorem addFileToServiceC_services (c : Catalog) (id : String) (f : SpecFile) (v : String) :
    (addFileToServiceC c id f v).services = c.services := rfl

@[simp] theorem addFileToServiceC_versionedServices (c : Catalog) (id : String) (f : SpecFile) (v : String) :
    (addFileToServiceC c id f v).versionedServices = c.versionedServices := rfl

theorem foldl_addFileToServiceC_services (id v : String) (c : Catalog) (fs : List SpecFile) :
    (fs.foldl (fun c f => addFileToServiceC c id f v) c).services = c.services := by
  induction fs generalizing c with
  | nil => rfl
  | cons f fs ih => rw [List.foldl_cons, ih]; rfl

theorem foldl_addFileToServiceC_versionedServices (id v : String) (c : Catalog) (fs : List SpecFile) :
    (fs.foldl (fun c f => addFileToServiceC c id f v) c).versionedServices = c.versionedServices := by
  induction fs generalizing c with
  | nil => rfl
  | cons f fs ih => rw [List.foldl_cons, ih]; rfl

@[simp] theorem versionDomainC_services (c : Catalog) (id : String) :
    (versionDomainC c id).services = c.services := by
  unfold versionDomainC; split <;> rfl

@[simp] theorem versionDomainC_versionedServices (c : Catalog) (id : String) :
    (versionDomainC c id).versionedServices = c.versionedServices := by
  unfold versionDomainC; split <;> rfl

@[simp] theorem versionDomainC_serviceFiles (c : Catalog) (id : String) :
    (versionDomainC c id).serviceFiles = c.serviceFiles := by
  unfold versionDomainC; split <;> rfl

@[simp] theorem writeDomainC_services (c : Catalog) (r : DomainRecord) :
    (writeDomainC c r).services = c.services := rfl

@[simp] theorem writeDomainC_versionedServices (c : Catalog) (r : DomainRecord) :
    (writeDomainC c r).versionedServices = c.versionedServices := rfl

@[simp] theorem writeDomainC_serviceFiles (c : Catalog) (r : DomainRecord) :
    (writeDomainC c r).serviceFiles = c.serviceFiles := rfl

@[simp] theorem addServiceToDomainC_services (c : Catalog) (id : String) (ref : MessageRef) (v : String) :
    (addServiceToDomainC c id ref v).services = c.services := rfl

@[simp] theorem addServiceToDomainC_versionedServices (c : Catalog) (id : String) (ref : MessageRef) (v : String) :
    (addServiceToDomainC c id ref v).versionedServices = c.versionedServices := rfl

@[simp] theorem addServiceToDomainC_serviceFiles (c : Catalog) (id : String) (ref : MessageRef) (v : String) :
    (addServiceToDomainC c id ref v).serviceFiles = c.serviceFiles := rfl

theorem processDomain_services (c : Catalog) (d : DomainConfig) (service : BuiltService) :
    (processDomain c d service).1.services = c.services := by
  unfold processDomain
  dsimp only
  repeat' split
  all_goals simp

theorem processDomain_versionedServices (c : Catalog) (d : DomainConfig) (service : BuiltService) :
    (processDomain c d service).1.versionedServices = c.versionedServices := by
  unfold processDomain
  dsimp only
  repeat' split
  all_goals simp

theorem processDomain_serviceFiles (c : Catalog) (d : DomainConfig) (service : BuiltService) :
    (processDomain c d service).1.serviceFiles = c.serviceFiles := by
  unfold processDomain
  dsimp only
  repeat' split
  all_goals simp

/-! ## Helper lemmas: de-duplication and object spread -/

theorem dedupeByIdAux_sublist (l : List MessageRef) : ∀ seen, (dedupeByIdAux seen l).Sublist l := by
  induction l with
  | nil => intro seen; simp [dedupeByIdAux]
  | cons r rs ih =>
    intro seen
    unfold dedupeByIdAux
    by_cases h : r.id ∈ seen
    · simp only [h, if_pos]
      exact (ih seen).cons r
    · simp only [h, if_neg, not_false_iff]
      exact (ih (r.id :: seen)).cons₂ r

theorem dedupeById_sublist (l : List MessageRef) : (dedupeById l).Sublist l :=
  dedupeByIdAux_sublist l []

theorem dedupeByIdAux_not_mem_seen (l : List MessageRef) :
    ∀ seen x, x ∈ dedupeByIdAux seen l → x.id ∉ seen := by
  induction l with
  | nil => intro seen x hx; simp [dedupeByIdAux] at hx
  | cons r rs ih =>
    intro seen x hx
    unfold dedupeByIdAux at hx
    by_cases h : r.id ∈ seen
    · simp only [h, if_pos] at hx
      exact ih seen x hx
    · simp only [h, if_neg, not_false_iff, List.mem_cons] at hx
      rcases hx with rfl | hx
      · exact h
      · have := ih (r.id :: seen) x hx
        intro hc
        exact this (List.mem_cons_of_mem _ hc)

theorem dedupeByIdAux_nodup (l : List MessageRef) :
    ∀ seen, ((dedupeByIdAux seen l).map (fun r => r.id)).Nodup := by
  induction l with
  | nil => intro seen; simp [dedupeByIdAux]
  | cons r rs ih =>
    intro seen
    unfold dedupeByIdAux
    by_cases h : r.id ∈ seen
    · simp only [h, if_pos]
      exact ih seen
    · simp only [h, if_neg, not_false_iff, List.map_cons, List.nodup_cons]
      refine ⟨?_, ih (r.id :: seen)⟩
      intro hc
      rcases List.mem_map.mp hc with ⟨x, hx, hid⟩
      have := dedupeByIdAux_not_mem_seen rs (r.id :: seen) x hx
      exact this (by rw [hid]; exact List.mem_cons_self _ _)

theorem dedupeById_nodup (l : List MessageRef) : ((dedupeById l).map (fun r => r.id)).Nodup :=
  dedupeByIdAux_nodup l []

theorem dedupeByIdAux_mem_id (l : List MessageRef) :
    ∀ seen i, i ∉ seen → ((∃ a ∈ l, a.id = i) ↔ ∃ b ∈ dedupeByIdAux seen l, b.id = i) := by
  induction l with
  | nil => intro seen i _; simp [dedupeByIdAux]
  | cons r rs ih =>
    intro seen i hi
    unfold dedupeByIdAux
    by_cases h : r.id ∈ seen
    · simp only [h, if_pos]
      constructor
      · rintro ⟨a, ha, rfl⟩
        rcases List.mem_cons.mp ha with rfl | ha
        · exact absurd h hi
        · exact (ih seen a.id hi).mp ⟨a, ha, rfl⟩
      · rintro ⟨b, hb, rfl⟩
        rcases (ih seen b.id hi).mpr ⟨b, hb, rfl⟩ with ⟨a, ha, hai⟩
        exact ⟨a, List.mem_cons_of_mem _ ha, hai⟩
    · simp only [h, if_neg, not_false_iff]
      by_cases hir : i = r.id
      · subst hir
        constructor
        · intro _
          exact ⟨r, List.mem_cons_self _ _, rfl⟩
        · intro _
          exact ⟨r, List.mem_cons_self _ _, rfl⟩
      · have hi' : i ∉ r.id :: seen := by
          intro hc
          rcases List.mem_cons.mp hc with hc | hc
          · exact hir hc
          · exact hi hc
        constructor
        · rintro ⟨a, ha, rfl⟩
          rcases List.mem_cons.mp ha with rfl | ha
          · exact absurd rfl hir
          · rcases (ih (r.id :: seen) a.id hi').mp ⟨a, ha, rfl⟩ with ⟨b, hb, hbi⟩
            exact ⟨b, List.mem_cons_of_mem _ hb, hbi⟩
        · rintro ⟨b, hb, rfl⟩
          rcases List.mem_cons.mp hb with rfl | hb
          · exact absurd rfl hir
          · rcases (ih (r.id :: seen) b.id hi').mpr ⟨b, hb, rfl⟩ with ⟨a, ha, hai⟩
            exact ⟨a, List.mem_cons_of_mem _ ha, hai⟩

theorem dedupeById_mem_id (l : List MessageRef) (i : String) :
    (∃ a ∈ l, a.id = i) ↔ ∃ b ∈ dedupeById l, b.id = i :=
  dedupeByIdAux_mem_id l [] i (List.not_mem_nil i)

theorem lookupObj_objInsert (o : List (String × String)) (k v k' : String) :
    lookupObj (objInsert o k v) k' = if k' = k then some v else lookupObj o k' := by
  induction o with
  | nil =>
    by_cases h : k' = k
    · simp [objInsert, lookupObj, h]
    · have h' : ¬k = k' := fun hc => h hc.symm
      simp [objInsert, lookupObj, h, h']
  | cons kv rest ih =>
    obtain ⟨k0, v0⟩ := kv
    by_cases h0 : k0 = k
    · subst h0
      by_cases h : k' = k0
      · simp [objInsert, lookupObj, h]
      · have h' : ¬k0 = k' := fun hc => h hc.symm
        simp [objInsert, lookupObj, h, h']
    · by_cases h : k' = k0
      · subst h
        simp [objInsert, lookupObj, h0]
      · have h' : ¬k0 = k' := fun hc => h hc.symm
        simp [objInsert, lookupObj, h0, h, h', ih]

theorem lookupObj_eq_none_of_not_mem (o : List (String × String)) (k : String)
    (h : k ∉ o.map Prod.fst) : lookupObj o k = none := by
  induction o with
  | nil => rfl
  | cons kv rest ih =>
    simp only [List.map_cons, List.mem_cons, not_or] at h
    obtain ⟨k0, v0⟩ := kv
    simp only [lookupObj]
    rw [if_neg (fun hc => h.1 hc.symm)]
    exact ih h.2

theorem lookupObj_objSpread (b : List (String × String)) :
    ∀ (a : List (String × String)) (k : String), (b.map Prod.fst).Nodup →
      lookupObj (objSpread a b) k = (lookupObj b k).or (lookupObj a k) := by
  induction b with
  | nil => intro a k _; simp [objSpread, lookupObj]
  | cons kv rest ih =>
    intro a k hnd
    obtain ⟨k0, v0⟩ := kv
    simp only [List.map_cons, List.nodup_cons] at hnd
    have step : objSpread a ((k0, v0) :: rest) = objSpread (objInsert a k0 v0) rest := rfl
    rw [step, ih (objInsert a k0 v0) k hnd.2]
    by_cases h : k = k0
    · subst h
      have : lookupObj rest k = none := lookupObj_eq_none_of_not_mem rest k hnd.1
      simp [lookupObj, this, lookupObj_objInsert]
    · have h' : ¬k0 = k := fun hc => h hc.symm
      simp [lookupObj, h, h', lookupObj_objInsert]

/-! ## Central lemmas about the written service record -/

theorem mergeServiceRecord_id (s : BuiltService) (fs fr : List MessageRef) (latest : Option SvcRecord) :
    (mergeServiceRecord s fs fr latest).id = s.id := by
  cases latest <;> rfl

theorem getServiceC_writeServiceC (c : Catalog) (r : SvcRecord) (i : String) (h : r.id = i) :
    getServiceC (writeServiceC c r) i =
      some { r with receives := dedupeById r.receives, sends := dedupeById r.sends } := by
  unfold getServiceC writeServiceC
  dsimp only
  rw [List.find?_cons_of_pos]
  exact beq_iff_eq.mpr h

theorem getServiceC_foldl_addFile (fs : List SpecFile) (id' v : String) (c : Catalog) (i : String) :
    getServiceC (fs.foldl (fun c f => addFileToServiceC c id' f v) c) i = getServiceC c i := by
  unfold getServiceC
  rw [foldl_addFileToServiceC_services]

theorem getServiceC_processMessages (c : Catalog) (document : OpenAPIDocument) (i : String) :
    getServiceC (processMessagesForOpenAPISpec c document).catalog i = getServiceC c i := by
  unfold getServiceC
  rw [processMessages_services]

theorem getServiceC_domainStep (od : Option DomainConfig) (c : Catalog) (s : BuiltService) (i : String) :
    getServiceC (domainStep od c s).1 i = getServiceC c i := by
  unfold getServiceC
  cases od with
  | none => rfl
  | some d => simp only [domainStep]; rw [processDomain_services]

theorem domainStep_versionedServices (od : Option DomainConfig) (c : Catalog) (s : BuiltService) :
    (domainStep od c s).1.versionedServices = c.versionedServices := by
  cases od with
  | none => rfl
  | some d => simp only [domainStep]; rw [processDomain_versionedServices]

theorem domainStep_serviceFiles (od : Option DomainConfig) (c : Catalog) (s : BuiltService) :
    (domainStep od c s).1.serviceFiles = c.serviceFiles := by
  cases od with
  | none => rfl
  | some d => simp only [domainStep]; rw [processDomain_serviceFiles]

/-- The current service record after processing one parsed spec: the merge
of the freshly built service with the previously cataloged latest record
(if any), with the SDK's id-dedup applied to the list fields. -/
theorem processSpecParsed_getService (options : GeneratorProps) (serviceSpec : SpecInput)
    (document : OpenAPIDocument) (c : Catalog) :
    getServiceC (processSpecParsed options serviceSpec document c).1 (builtServiceOf serviceSpec document).id =
      some (writtenServiceRecord serviceSpec document
        (getServiceC c (builtServiceOf serviceSpec document).id)) := by
  unfold processSpecParsed writtenServiceRecord builtServiceOf
  dsimp only
  rw [getServiceC_foldl_addFile]
  rw [getServiceC_writeServiceC _ _ _ (mergeServiceRecord_id _ _ _ _)]
  rw [getServiceC_processMessages, getServiceC_domainStep]
  rw [processMessages_sends, processMessages_receives]

/-- The archived services after processing one parsed spec: the cataloged
latest record is archived exactly when its version differs (as strings)
from the parsed document's version. -/
theorem processSpecParsed_versionedServices (options : GeneratorProps) (serviceSpec : SpecInput)
    (document : OpenAPIDocument) (c : Catalog) :
    (processSpecParsed options serviceSpec document c).1.versionedServices =
      (match getServiceC c (builtServiceOf serviceSpec document).id with
       | some l => if l.version ≠ document.info.version then l :: c.versionedServices else c.versionedServices
       | none => c.versionedServices) := by
  unfold processSpecParsed builtServiceOf
  dsimp only
  rw [foldl_addFileToServiceC_versionedServices, writeServiceC_versionedServices]
  rw [getServiceC_processMessages, getServiceC_domainStep]
  cases hl : getServiceC c
      (Services.buildService { id := serviceSpec.id, path := serviceSpec.path, name := serviceSpec.name } document).id with
  | none =>
    simp only [versionStep]
    rw [processMessages_versionedServices, domainStep_versionedServices]
  | some l =>
    simp only [versionStep]
    by_cases hv : l.version = document.info.version
    · rw [if_neg (not_not_intro hv)]
      dsimp only
      rw [processMessages_versionedServices, domainStep_versionedServices]
      simp [hv]
    · rw [if_pos hv]
      dsimp only
      have hfind : getServiceC (processMessagesForOpenAPISpec (domainStep options.domain c
          (Services.buildService { id := serviceSpec.id, path := serviceSpec.path, name := serviceSpec.name } document)).1
          document).catalog
          (Services.buildService { id := serviceSpec.id, path := serviceSpec.path, name := serviceSpec.name } document).id
          = some l := by
        rw [getServiceC_processMessages, getServiceC_domainStep, hl]
      rw [versionServiceC_versionedServices_of_find _ _ _ hfind]
      rw [processMessages_versionedServices, domainStep_versionedServices]
      simp [hv]

/-! ## Helper lemmas: run-level skipping, message collections -/

theorem processSpec_failed (options : GeneratorProps) (c : Catalog) (spec : SpecInput)
    (h : spec.parse = none) :
    processSpec options c spec =
      (c, ["Processing " ++ spec.path, "Failed to parse OpenAPI file: " ++ spec.path]) := by
  unfold processSpec
  rw [h]

theorem runSpecs_fst (options : GeneratorProps) :
    ∀ (specs : List SpecInput) (c : Catalog) (logs : List String),
      (specs.foldl (fun acc spec => let r := processSpec options acc.1 spec; (r.1, acc.2 ++ r.2)) (c, logs)).1 =
        specs.foldl (fun c spec => (processSpec options c spec).1) c := by
  intro specs
  induction specs with
  | nil => intro c logs; rfl
  | cons spec rest ih =>
    intro c logs
    rw [List.foldl_cons, List.foldl_cons]
    exact ih _ _

theorem runSpecs_catalog (options : GeneratorProps) (c : Catalog) (specs : List SpecInput) :
    (runSpecs options c specs).1 = specs.foldl (fun c spec => (processSpec options c spec).1) c :=
  runSpecs_fst options specs c []

theorem msgColl_setMsgColl_same (c : Catalog) (k : MessageKind) (l : List MsgRecord) :
    msgColl (setMsgColl c k l) k = l := by cases k <;> rfl

theorem getMessageC_writeMessageC (c : Catalog) (k : MessageKind) (m : MsgRecord) (i : String)
    (h : m.id = i) : getMessageC (writeMessageC c k m) k i = some m := by
  unfold getMessageC writeMessageC
  rw [msgColl_setMsgColl_same, List.find?_cons_of_pos]
  exact beq_iff_eq.mpr h

theorem getMessageC_addFile (c : Catalog) (k : MessageKind) (a b d e : String) (k' : MessageKind) (i : String) :
    getMessageC (addFileToMessageC c k a b d e) k' i = getMessageC c k' i := by
  unfold getMessageC
  rw [addFileToMessageC_msgColl]

theorem getMessageC_foldl_addFile (k : MessageKind) (id v : String) (c : Catalog) (rs : List RespEntry)
    (k' : MessageKind) (i : String) :
    getMessageC (rs.foldl (fun c r => addFileToMessageC c k id ("response-" ++ r.statusCode ++ ".json") r.content v) c) k' i
      = getMessageC c k' i := by
  unfold getMessageC
  rw [foldl_addFile_msgColl]

@[simp] theorem setMsgFiles_events (c : Catalog) (k : MessageKind) (l : List AttachedFile) :
    (setMsgFiles c k l).events = c.events := by cases k <;> rfl

@[simp] theorem setMsgFiles_commands (c : Catalog) (k : MessageKind) (l : List AttachedFile) :
    (setMsgFiles c k l).commands = c.commands := by cases k <;> rfl

@[simp] theorem setMsgFiles_queries (c : Catalog) (k : MessageKind) (l : List AttachedFile) :
    (setMsgFiles c k l).queries = c.queries := by cases k <;> rfl

@[simp] theorem addFileToMessageC_events (c : Catalog) (k : MessageKind) (a b d e : String) :
    (addFileToMessageC c k a b d e).events = c.events := by
  unfold addFileToMessageC; simp

@[simp] theorem addFileToMessageC_commands (c : Catalog) (k : MessageKind) (a b d e : String) :
    (addFileToMessageC c k a b d e).commands = c.commands := by
  unfold addFileToMessageC; simp

@[simp] theorem addFileToMessageC_queries (c : Catalog) (k : MessageKind) (a b d e : String) :
    (addFileToMessageC c k a b d e).queries = c.queries := by
  unfold addFileToMessageC; simp

theorem foldl_addFile_events (k : MessageKind) (id v : String) (c : Catalog) (rs : List RespEntry) :
    (rs.foldl (fun c r => addFileToMessageC c k id ("response-" ++ r.statusCode ++ ".json") r.content v) c).events
      = c.events := by
  induction rs generalizing c with
  | nil => rfl
  | cons r rest ih => rw [List.foldl_cons, ih]; simp

theorem foldl_addFile_commands (k : MessageKind) (id v : String) (c : Catalog) (rs : List RespEntry) :
    (rs.foldl (fun c r => addFileToMessageC c k id ("response-" ++ r.statusCode ++ ".json") r.content v) c).commands
      = c.commands := by
  induction rs generalizing c with
  | nil => rfl
  | cons r rest ih => rw [List.foldl_cons, ih]; simp

theorem foldl_addFile_queries (k : MessageKind) (id v : String) (c : Catalog) (rs : List RespEntry) :
    (rs.foldl (fun c r => addFileToMessageC c k id ("response-" ++ r.statusCode ++ ".json") r.content v) c).queries
      = c.queries := by
  induction rs generalizing c with
  | nil => rfl
  | cons r rest ih => rw [List.foldl_cons, ih]; simp

@[simp] theorem versionMessageC_query_events (c : Catalog) (id : String) :
    (versionMessageC c .query id).events = c.events := by
  unfold versionMessageC; split <;> rfl

@[simp] theorem versionMessageC_query_commands (c : Catalog) (id : String) :
    (versionMessageC c .query id).commands = c.commands := by
  unfold versionMessageC; split <;> rfl

@[simp] theorem writeMessageC_query_events (c : Catalog) (m : MsgRecord) :
    (writeMessageC c .query m).events = c.events := rfl

@[simp] theorem writeMessageC_query_commands (c : Catalog) (m : MsgRecord) :
    (writeMessageC c .query m).commands = c.commands := rfl

theorem writeMessageC_query_queries (c : Catalog) (m : MsgRecord) :
    (writeMessageC c .query m).queries = m :: c.queries.filter (fun x => x.id != m.id) := rfl

theorem strAppend_assoc (a b c : String) : (a ++ b) ++ c = a ++ (b ++ c) := by
  rcases a with ⟨la⟩
  rcases b with ⟨lb⟩
  rcases c with ⟨lc⟩
  show String.mk ((la ++ lb) ++ lc) = String.mk (la ++ (lb ++ lc))
  rw [List.append_assoc]

theorem jsOr_of_falsy (o : Option String) (d : String) (h : optTruthy o = false) : jsOr o d = d := by
  cases o with
  | none => rfl
  | some s =>
    simp only [optTruthy, strTruthy] at h
    simp only [jsOr]
    rw [if_pos]
    simpa using h

theorem mergeServiceRecord_version (s : BuiltService) (fs fr : List MessageRef) (latest : Option SvcRecord) :
    (mergeServiceRecord s fs fr latest).version = s.version := by
  cases latest <;> rfl

theorem filterMap_if_pos_eq_filter_map (l : List Operation) (f : Operation → MessageRef) :
    l.filterMap (fun op => if op.action = "sends" then some (f op) else none) =
      (l.filter (fun op => op.action == "sends")).map f := by
  induction l with
  | nil => rfl
  | cons op rest ih =>
    by_cases h : op.action = "sends" <;> simp [h, ih]

theorem filterMap_if_neg_eq_filter_map (l : List Operation) (f : Operation → MessageRef) :
    l.filterMap (fun op => if op.action = "sends" then none else some (f op)) =
      (l.filter (fun op => !(op.action == "sends"))).map f := by
  induction l with
  | nil => rfl
  | cons op rest ih =>
    by_cases h : op.action = "sends" <;> simp [h, ih]

theorem sendsDerived_eq_filter (document : OpenAPIDocument) :
    sendsDerived document =
      ((getOperationsByType document).filter (fun op => op.action == "sends")).map (opMessageRef document) := by
  unfold sendsDerived
  exact filterMap_if_pos_eq_filter_map _ _

theorem receivesDerived_eq_filter (document : OpenAPIDocument) :
    receivesDerived document =
      ((getOperationsByType document).filter (fun op => !(op.action == "sends"))).map (opMessageRef document) := by
  unfold receivesDerived
  exact filterMap_if_neg_eq_filter_map _ _


/-! ## Claims -/

/-- C6: for an operation lacking a (truthy) `operationId` and carrying no
id-override extension, the message id `buildMessage` produces is the
slugified document title joined with the HTTP method and, when the
sanitized path is non-empty, the sanitized path — a deterministic function
of the document and operation alone (in particular independent of any other
input); and when an `operationId` is present the id is exactly that
operation id, so the API name enters only the path-level fallback ids. -/
theorem claim6_fallback_id (document : OpenAPIDocument) (operation : Operation)
    (hext : optTruthy (lookupObj operation.extensions "x-eventcatalog-message-id") = false) :
    (optTruthy operation.operationId = false →
      (Messages.buildMessage document operation).id =
        slugify true false document.info.title ++ "_" ++ operation.method ++
          (if jsPathSanitize operation.path = "" then "" else "_" ++ jsPathSanitize operation.path)) ∧
    (∀ document' operation', document' = document → operation' = operation →
      (Messages.buildMessage document' operation').id = (Messages.buildMessage document operation).id) ∧
    (∀ o, operation.operationId = some o → o ≠ "" → (Messages.buildMessage document operation).id = o) := by
  refine ⟨?_, ?_, ?_⟩
  · intro hop
    unfold Messages.buildMessage
    dsimp only
    rw [jsOr_of_falsy _ _ hext, jsOr_of_falsy _ _ hop]
    rw [hop]
    by_cases hp : jsPathSanitize operation.path = ""
    · simp [strTruthy, hp]
    · simp [strTruthy, hp, strAppend_assoc]
  · intro document' operation' hd ho
    rw [hd, ho]
  · intro o hop hne
    unfold Messages.buildMessage
    dsimp only
    rw [jsOr_of_falsy _ _ hext]
    have htr : optTruthy operation.operationId = true := by
      rw [hop]; simp [optTruthy, strTruthy, hne]
    rw [htr]
    simp only [Bool.not_true, Bool.false_and, if_neg, Bool.false_eq_true, not_false_iff, ite_false]
    rw [hop]
    simp [jsOr, hne]

/-- C6 witness: on the petstore document, an operation with no
`operationId` on `GET /products/pid` gets the stable fallback id. -/
theorem claim6_fallback_id_witness :
    (Messages.buildMessage exDoc
      { path := "/products/pid", method := "GET", operationId := none, externalDocs := none
        type := "query", action := "receives", description := none, summary := none
        tags := [], extensions := [] }).id = "swagger-petstore_GET_products_pid" := by
  have h := claim6_fallback_id exDoc
    { path := "/products/pid", method := "GET", operationId := none, externalDocs := none
      type := "query", action := "receives", description := none, summary := none
      tags := [], extensions := [] } (by decide)
  rw [h.1 (by decide)]
  decide

/-- C9: the message summary is the operation's explicit (non-empty) summary
when present; otherwise the description when present and shorter than 150
characters; and the empty string when the description is absent or has
length 150 or more. -/
theorem claim9_message_summary (op : Operation) :
    (∀ s, op.summary = some s → s ≠ "" → Messages.getSummary op = s) ∧
    (optTruthy op.summary = false → ∀ d, op.description = some d → d.length < 150 → Messages.getSummary op = d) ∧
    (optTruthy op.summary = false → op.description = none → Messages.getSummary op = "") ∧
    (optTruthy op.summary = false → ∀ d, op.description = some d → 150 ≤ d.length → Messages.getSummary op = "") := by
  refine ⟨?_, ?_, ?_, ?_⟩
  · intro s hs hne
    unfold Messages.getSummary
    rw [hs]
    simp [Option.getD, hne]
  · intro hfal d hd hlen
    have hms : op.summary.getD "" = "" := by
      cases hsum : op.summary with
      | none => rfl
      | some s =>
        rw [hsum] at hfal
        simp only [optTruthy, strTruthy] at hfal
        simpa using hfal
    unfold Messages.getSummary
    rw [hms, hd]
    by_cases hde : d = ""
    · simp [strTruthy, hde]
    · simp [strTruthy, hde, hlen]
  · intro hfal hd
    have hms : op.summary.getD "" = "" := by
      cases hsum : op.summary with
      | none => rfl
      | some s =>
        rw [hsum] at hfal
        simp only [optTruthy, strTruthy] at hfal
        simpa using hfal
    unfold Messages.getSummary
    rw [hms, hd]
    simp [strTruthy]
  · intro hfal d hd hlen
    have hms : op.summary.getD "" = "" := by
      cases hsum : op.summary with
      | none => rfl
      | some s =>
        rw [hsum] at hfal
        simp only [optTruthy, strTruthy] at hfal
        simpa using hfal
    unfold Messages.getSummary
    rw [hms, hd]
    have : ¬ d.length < 150 := by omega
    simp [strTruthy, this]

/-- C9 witness: the explicit summary wins; a short description is the
fallback; a 150-character description is suppressed. -/
theorem claim9_message_summary_witness :
    Messages.getSummary
        { path := "/a", method := "GET", operationId := none, externalDocs := none, type := "query"
          action := "receives", description := some "long description", summary := some "Short summary"
          tags := [], extensions := [] } = "Short summary" ∧
    Messages.getSummary
        { path := "/a", method := "GET", operationId := none, externalDocs := none, type := "query"
          action := "receives", description := some "short description", summary := none
          tags := [], extensions := [] } = "short description" ∧
    Messages.getSummary
        { path := "/a", method := "GET", operationId := none, externalDocs := none, type := "query"
          action := "receives"
          description := some (String.mk (List.replicate 150 'x')), summary := none
          tags := [], extensions := [] } = "" := by
  refine ⟨?_, ?_, ?_⟩
  · exact (claim9_message_summary _).1 "Short summary" rfl (by decide)
  · exact (claim9_message_summary _).2.1 (by decide) "short description" rfl (by decide)
  · exact (claim9_message_summary _).2.2.2 (by decide) _ rfl (by simp [String.length])

/-- C10: a message-type string that is none of `event`, `command`, `query`
selects the query utilities, so the message lands in (and is looked up
from) the query collection instead of failing: the step leaves events and
commands untouched and writes the freshly built message into `queries`. -/
theorem claim10_unknown_type_selects_query (t : String)
    (h1 : t ≠ "event") (h2 : t ≠ "command") (h3 : t ≠ "query") :
    getMessageTypeUtils t = MessageKind.query ∧
    ∀ (document : OpenAPIDocument) (st : MsgState) (op : Operation), op.type = t →
      (processOperation document st op).catalog.events = st.catalog.events ∧
      (processOperation document st op).catalog.commands = st.catalog.commands ∧
      ∃ m ∈ (processOperation document st op).catalog.queries,
        m.id = (Messages.buildMessage document op).id := by
  have hq : getMessageTypeUtils t = MessageKind.query := by
    unfold getMessageTypeUtils
    rw [if_neg h1, if_neg h2]
  refine ⟨hq, ?_⟩
  intro document st op hop
  unfold processOperation
  rw [hop, hq]
  dsimp only
  refine ⟨?_, ?_, ?_⟩
  · repeat' split
    all_goals simp [foldl_addFile_events]
  · repeat' split
    all_goals simp [foldl_addFile_commands]
  · repeat' split
    all_goals {
      simp only [foldl_addFile_queries, addFileToMessageC_queries, writeMessageC_query_queries]
      exact ⟨_, List.mem_cons_self _ _, rfl⟩
    }

/-- C10 witness: the unrecognised type `"message"` selects the query
utilities, and processing such an operation on the empty catalog leaves
events and commands empty while a query record appears. -/
theorem claim10_unknown_type_selects_query_witness :
    getMessageTypeUtils "message" = MessageKind.query ∧
    (processOperation exDoc { catalog := emptyCatalog, logs := [], receives := [], sends := [] }
        { path := "/pets", method := "GET", operationId := some "listPets", externalDocs := none
          type := "message", action := "receives", description := none, summary := none
          tags := [], extensions := [] }).catalog.events = emptyCatalog.events ∧
    ∃ m ∈ (processOperation exDoc { catalog := emptyCatalog, logs := [], receives := [], sends := [] }
        { path := "/pets", method := "GET", operationId := some "listPets", externalDocs := none
          type := "message", action := "receives", description := none, summary := none
          tags := [], extensions := [] }).catalog.queries,
      m.id = (Messages.buildMessage exDoc
        { path := "/pets", method := "GET", operationId := some "listPets", externalDocs := none
          type := "message", action := "receives", description := none, summary := none
          tags := [], extensions := [] }).id := by
  have h := claim10_unknown_type_selects_query "message" (by decide) (by decide) (by decide)
  exact ⟨h.1, (h.2 exDoc _ _ rfl).1, (h.2 exDoc _ _ rfl).2.2⟩

/-- C7: a spec whose OpenAPI validation fails is logged and skipped: the
catalog is left completely untouched by that spec (no service, domain,
message, or file write), and the run over the remaining specs produces the
same catalog as if the failing spec had not been configured at all. -/
theorem claim7_validation_failure_skips (options : GeneratorProps) (c : Catalog) (spec : SpecInput)
    (h : spec.parse = none) :
    (processSpec options c spec).1 = c ∧
    (processSpec options c spec).2 =
      ["Processing " ++ spec.path, "Failed to parse OpenAPI file: " ++ spec.path] ∧
    ∀ pre post, (runSpecs options c (pre ++ spec :: post)).1 = (runSpecs options c (pre ++ post)).1 := by
  refine ⟨?_, ?_, ?_⟩
  · rw [processSpec_failed options c spec h]
  · rw [processSpec_failed options c spec h]
  · intro pre post
    rw [runSpecs_catalog, runSpecs_catalog, List.foldl_append, List.foldl_append, List.foldl_cons]
    congr 1
    rw [processSpec_failed options _ spec h]

/-- C7 witness: with a failing spec before a valid one, the failing spec
leaves the empty catalog untouched and the run equals the run without it. -/
theorem claim7_validation_failure_skips_witness :
    (processSpec exOptions emptyCatalog exBadSpec).1 = emptyCatalog ∧
    (runSpecs exOptions emptyCatalog [exBadSpec, exSpec]).1 =
      (runSpecs exOptions emptyCatalog [exSpec]).1 := by
  have h := claim7_validation_failure_skips exOptions emptyCatalog exBadSpec rfl
  exact ⟨h.1, h.2.2 [] [exSpec]⟩

/-- C8 counterexample: invoking the plugin with `PROJECT_DIR` absent does
not throw — the current entry defaults the variable to the working
directory and proceeds to process the configured specs (here writing one
service into the catalog), contradicting the claim that absence is a fatal
startup error with no catalog writes. -/
theorem claim8_cex_no_throw_on_absent_projectdir :
    resolveProjectDir none "/work" = .ok "/work" ∧
    (∀ e, runGenerator none "/work" exOptions emptyCatalog ≠ .error e) ∧
    (match runGenerator none "/work" exOptions emptyCatalog with
     | .ok r => r.1.services.length
     | .error _ => 0) = 1 := by
  refine ⟨by rfl, ?_, by decide⟩
  intro e hc
  unfold runGenerator resolveProjectDir at hc
  simp [optTruthy, strTruthy] at hc

/-- C8 amended: the current plugin entry never throws on a missing
`PROJECT_DIR` — a falsy value is defaulted to the process working directory
(which is never empty) before the guard runs, so the run proceeds; only the
legacy entry's guard treated absence as a fatal error. -/
theorem claim8_projectdir_defaulted (env : Option String) (cwd : String) (options : GeneratorProps)
    (c : Catalog) (hcwd : cwd ≠ "") :
    (env = none → resolveProjectDir env cwd = .ok cwd) ∧
    (∃ dir, resolveProjectDir env cwd = .ok dir) ∧
    (∃ out, runGenerator env cwd options c = .ok out) ∧
    legacyResolveProjectDir none = .error "Please provide catalog url (env variable PROJECT_DIR)" := by
  have hres : ∃ dir, resolveProjectDir env cwd = .ok dir := by
    cases env with
    | none =>
      refine ⟨cwd, ?_⟩
      simp [resolveProjectDir, optTruthy, strTruthy, hcwd, jsOr]
    | some s =>
      by_cases hs : s = ""
      · subst hs
        refine ⟨cwd, ?_⟩
        simp [resolveProjectDir, optTruthy, strTruthy, hcwd, jsOr]
      · refine ⟨s, ?_⟩
        simp [resolveProjectDir, optTruthy, strTruthy, hs, jsOr]
  refine ⟨?_, hres, ?_, rfl⟩
  · intro he
    subst he
    simp [resolveProjectDir, optTruthy, strTruthy, hcwd, jsOr]
  · obtain ⟨dir, hdir⟩ := hres
    unfold runGenerator
    rw [hdir]
    exact ⟨_, rfl⟩

/-- C8 amended witness: with the variable absent and working directory
`/work`, the resolution yields `/work` and a full run succeeds. -/
theorem claim8_projectdir_defaulted_witness :
    resolveProjectDir (none : Option String) "/work" = .ok "/work" ∧
    (∃ out, runGenerator none "/work" exOptions emptyCatalog = .ok out) := by
  have h := claim8_projectdir_defaulted none "/work" exOptions emptyCatalog (by decide)
  exact ⟨h.1 rfl, h.2.2.1⟩

/-- C1: for a service id already cataloged at the latest version, a re-run
writes back the cataloged markdown unchanged while name, summary, badges
and schema path are refreshed from the freshly built record; likewise a
message whose id is cataloged at processing time keeps the cataloged
markdown, while its structural fields are refreshed from the fresh build. -/
theorem claim1_markdown_preserved (options : GeneratorProps) (serviceSpec : SpecInput)
    (document : OpenAPIDocument) (c : Catalog) (prior : SvcRecord)
    (hparse : serviceSpec.parse = some document)
    (hprior : getServiceC c (builtServiceOf serviceSpec document).id = some prior) :
    (∃ w, getServiceC (processSpec options c serviceSpec).1 (builtServiceOf serviceSpec document).id = some w ∧
      w.markdown = prior.markdown ∧
      w.name = (builtServiceOf serviceSpec document).name ∧
      w.summary = (builtServiceOf serviceSpec document).summary ∧
      w.badges = (builtServiceOf serviceSpec document).badges ∧
      w.schemaPath = (builtServiceOf serviceSpec document).schemaPath) ∧
    (∀ (document' : OpenAPIDocument) (st : MsgState) (op : Operation) (pm : MsgRecord),
      getMessageC st.catalog (getMessageTypeUtils op.type) (Messages.buildMessage document' op).id = some pm →
      ∃ wm, getMessageC (processOperation document' st op).catalog (getMessageTypeUtils op.type)
              (Messages.buildMessage document' op).id = some wm ∧
        wm.markdown = pm.markdown ∧
        wm.name = (Messages.buildMessage document' op).name ∧
        wm.summary = (Messages.buildMessage document' op).summary ∧
        wm.badges = (Messages.buildMessage document' op).badges ∧
        wm.schemaPath = (Messages.buildMessage document' op).schemaPath) := by
  constructor
  · refine ⟨writtenServiceRecord serviceSpec document (some prior), ?_, ?_, ?_, ?_, ?_, ?_⟩
    · unfold processSpec
      rw [hparse]
      dsimp only
      rw [processSpecParsed_getService, hprior]
    · simp [writtenServiceRecord, mergeServiceRecord]
    · simp [writtenServiceRecord, mergeServiceRecord]
    · simp [writtenServiceRecord, mergeServiceRecord]
    · simp [writtenServiceRecord, mergeServiceRecord]
    · simp [writtenServiceRecord, mergeServiceRecord]
  · intro document' st op pm hm
    unfold processOperation
    dsimp only
    rw [hm]
    dsimp only
    repeat' split
    all_goals {
      try simp only [getMessageC_foldl_addFile, getMessageC_addFile]
      rw [getMessageC_writeMessageC _ _ _ _ rfl]
      exact ⟨_, rfl, rfl, rfl, rfl, rfl, rfl⟩
    }

/-- C1 witness: re-running over the petstore catalog entry keeps its
markdown and refreshes name, summary, badges and schema path. -/
theorem claim1_markdown_preserved_witness :
    ∃ w, getServiceC (processSpec exOptions
        (catalogWith (priorService "1.0.0" [("openapiPath", "petstore.yml")] [] [])) exSpec).1
        (builtServiceOf exSpec exDoc).id = some w ∧
      w.markdown = (priorService "1.0.0" [("openapiPath", "petstore.yml")] [] []).markdown ∧
      w.name = (builtServiceOf exSpec exDoc).name ∧
      w.summary = (builtServiceOf exSpec exDoc).summary ∧
      w.badges = (builtServiceOf exSpec exDoc).badges ∧
      w.schemaPath = (builtServiceOf exSpec exDoc).schemaPath :=
  (claim1_markdown_preserved exOptions exSpec exDoc
    (catalogWith (priorService "1.0.0" [("openapiPath", "petstore.yml")] [] []))
    (priorService "1.0.0" [("openapiPath", "petstore.yml")] [] []) rfl (by decide)).1

/-- C2: when the cataloged latest version equals the parsed version, the
receives list written back is the prior receives followed by the newly
derived receives with duplicate ids removed (first occurrence wins): the
stored list is exactly the id-dedup of the concatenation, a sublist of it
(so relative order is preserved), its ids are duplicate-free, and it covers
exactly the ids of the union. -/
theorem claim2_receives_union (options : GeneratorProps) (serviceSpec : SpecInput)
    (document : OpenAPIDocument) (c : Catalog) (prior : SvcRecord)
    (hparse : serviceSpec.parse = some document)
    (hprior : getServiceC c (builtServiceOf serviceSpec document).id = some prior)
    (hver : prior.version = document.info.version) :
    ∃ w, getServiceC (processSpec options c serviceSpec).1 (builtServiceOf serviceSpec document).id = some w ∧
      w.receives = dedupeById (prior.receives ++ receivesDerived document) ∧
      (dedupeById (prior.receives ++ receivesDerived document)).Sublist
        (prior.receives ++ receivesDerived document) ∧
      ((dedupeById (prior.receives ++ receivesDerived document)).map (fun r => r.id)).Nodup ∧
      ∀ i, (∃ a ∈ prior.receives ++ receivesDerived document, a.id = i) ↔
           ∃ b ∈ dedupeById (prior.receives ++ receivesDerived document), b.id = i := by
  refine ⟨writtenServiceRecord serviceSpec document (some prior), ?_, ?_,
    dedupeById_sublist _, dedupeById_nodup _, fun i => dedupeById_mem_id _ i⟩
  · unfold processSpec
    rw [hparse]
    dsimp only
    rw [processSpecParsed_getService, hprior]
  · simp only [writtenServiceRecord, mergeServiceRecord, builtServiceOf, Services.buildService]
    rw [if_pos hver]

/-- C2 witness: a prior receives entry that also appears among the fresh
receives is kept once, in prior position, with the fresh remainder behind. -/
theorem claim2_receives_union_witness :
    ∃ w, getServiceC (processSpec exOptions
        (catalogWith (priorService "1.0.0" [] [] [{ id := "listPets", version := "1.0.0" }])) exSpec).1
        (builtServiceOf exSpec exDoc).id = some w ∧
      w.receives = dedupeById ((priorService "1.0.0" [] [] [{ id := "listPets", version := "1.0.0" }]).receives
        ++ receivesDerived exDoc) := by
  obtain ⟨w, h1, h2, _⟩ := claim2_receives_union exOptions exSpec exDoc
    (catalogWith (priorService "1.0.0" [] [] [{ id := "listPets", version := "1.0.0" }]))
    (priorService "1.0.0" [] [] [{ id := "listPets", version := "1.0.0" }]) rfl (by decide) (by decide)
  exact ⟨w, h1, h2⟩

/-- C3 counterexample: with the petstore service already cataloged at the
same version with an empty `sends` list, the spec's one `sends`-marked
operation (`petVaccinated`) derives a sends reference, yet the service
written back has an empty `sends` list — the fresh sends are discarded in
favour of the cataloged ones, so the claim fails for runs over an existing
service. -/
theorem claim3_directional_bucketing_cex :
    sendsDerived exDoc = [{ id := "petVaccinated", version := "1.0.0" }] ∧
    ((getServiceC (processSpec exOptions
        (catalogWith (priorService "1.0.0" [("openapiPath", "petstore.yml")] [] [])) exSpec).1
        "swagger-petstore").map (fun s => s.sends)) = some [] := by decide

/-- C3 amended: operations are bucketed by the `sends` extension into the
derived sends/receives lists, and the written service gets the derived
sends only on a run where no service with that id is cataloged; when one
exists, the written `sends` is the cataloged list (deduped) and the fresh
sends are dropped, while receives are written on every run (prior receives
prepended when the versions match). -/
theorem claim3_directional_bucketing_amended (options : GeneratorProps) (serviceSpec : SpecInput)
    (document : OpenAPIDocument) (c : Catalog)
    (hparse : serviceSpec.parse = some document) :
    (sendsDerived document =
        ((getOperationsByType document).filter (fun op => op.action == "sends")).map (opMessageRef document) ∧
      receivesDerived document =
        ((getOperationsByType document).filter (fun op => !(op.action == "sends"))).map (opMessageRef document)) ∧
    (getServiceC c (builtServiceOf serviceSpec document).id = none →
      ∃ w, getServiceC (processSpec options c serviceSpec).1 (builtServiceOf serviceSpec document).id = some w ∧
        w.sends = dedupeById (sendsDerived document) ∧
        w.receives = dedupeById (receivesDerived document)) ∧
    (∀ prior, getServiceC c (builtServiceOf serviceSpec document).id = some prior →
      ∃ w, getServiceC (processSpec options c serviceSpec).1 (builtServiceOf serviceSpec document).id = some w ∧
        w.sends = dedupeById prior.sends ∧
        w.receives = dedupeById
          ((if prior.version = document.info.version then prior.receives else []) ++ receivesDerived document)) := by
  refine ⟨⟨sendsDerived_eq_filter document, receivesDerived_eq_filter document⟩, ?_, ?_⟩
  · intro hnone
    refine ⟨writtenServiceRecord serviceSpec document none, ?_, rfl, rfl⟩
    unfold processSpec
    rw [hparse]
    dsimp only
    rw [processSpecParsed_getService, hnone]
  · intro prior hprior
    refine ⟨writtenServiceRecord serviceSpec document (some prior), ?_, rfl, ?_⟩
    · unfold processSpec
      rw [hparse]
      dsimp only
      rw [processSpecParsed_getService, hprior]
    · simp only [writtenServiceRecord, mergeServiceRecord, builtServiceOf, Services.buildService]
      by_cases hv : prior.version = document.info.version
      · rw [if_pos hv, if_pos hv]
      · rw [if_neg hv, if_neg hv]
        simp

/-- C3 amended witness: on an empty catalog the `sends`-marked operation's
reference lands in `sends` and the other operation's in `receives`. -/
theorem claim3_directional_bucketing_amended_witness :
    ∃ w, getServiceC (processSpec exOptions emptyCatalog exSpec).1 (builtServiceOf exSpec exDoc).id = some w ∧
      w.sends = dedupeById (sendsDerived exDoc) ∧
      w.receives = dedupeById (receivesDerived exDoc) :=
  (claim3_directional_bucketing_amended exOptions exSpec exDoc emptyCatalog rfl).2.1 (by decide)

/-- C4 counterexample: with the petstore cataloged at version `2.0.0` and
the spec declaring `1.0.0` — not strictly greater under any semantic
ordering — the code still archives the cataloged record (the comparison is
a plain string inequality), and the full log output contains no line
reporting that an older version was detected. -/
theorem claim4_version_comparison_cex :
    (processSpec exOptions
        (catalogWith (priorService "2.0.0" [("openapiPath", "petstore.yml")] [] [])) exSpec).1.versionedServices
      = [priorService "2.0.0" [("openapiPath", "petstore.yml")] [] []] ∧
    (processSpec exOptions
        (catalogWith (priorService "2.0.0" [("openapiPath", "petstore.yml")] [] [])) exSpec).2 =
      ["Processing specs/petstore.yml",
       "Processing message: listPets (v1.0.0)",
       " - Message (v1.0.0) created",
       "Processing message: petVaccinated (v1.0.0)",
       " - Message (v1.0.0) created",
       "Processing service: Swagger Petstore (v1.0.0)",
       " - Versioned previous service (v2.0.0)",
       " - Service (v1.0.0) created"] := by decide

/-- C4 amended: the decision to archive is a plain string-inequality check
of the cataloged latest version against the parsed document version —
archival happens whenever they differ, in either direction, and never when
they are equal — and processing always proceeds to write a current service
carrying the parsed version; no older-version log line exists. -/
theorem claim4_version_inequality_archives (options : GeneratorProps) (serviceSpec : SpecInput)
    (document : OpenAPIDocument) (c : Catalog)
    (hparse : serviceSpec.parse = some document) :
    (∀ l, getServiceC c (builtServiceOf serviceSpec document).id = some l →
       l.version ≠ document.info.version →
       (processSpec options c serviceSpec).1.versionedServices = l :: c.versionedServices) ∧
    (∀ l, getServiceC c (builtServiceOf serviceSpec document).id = some l →
       l.version = document.info.version →
       (processSpec options c serviceSpec).1.versionedServices = c.versionedServices) ∧
    (∃ w, getServiceC (processSpec options c serviceSpec).1 (builtServiceOf serviceSpec document).id = some w ∧
       w.version = document.info.version) := by
  refine ⟨?_, ?_, ?_⟩
  · intro l hl hne
    unfold processSpec
    rw [hparse]
    dsimp only
    rw [processSpecParsed_versionedServices, hl]
    simp [hne]
  · intro l hl heq
    unfold processSpec
    rw [hparse]
    dsimp only
    rw [processSpecParsed_versionedServices, hl]
    simp [heq]
  · refine ⟨writtenServiceRecord serviceSpec document
      (getServiceC c (builtServiceOf serviceSpec document).id), ?_, ?_⟩
    · unfold processSpec
      rw [hparse]
      dsimp only
      rw [processSpecParsed_getService]
    · show (mergeServiceRecord _ _ _ _).version = _
      rw [mergeServiceRecord_version]
      rfl

/-- C4 amended witness: a downgrade (`2.0.0` → `1.0.0`) archives the
cataloged record; an equal version (`1.0.0` → `1.0.0`) archives nothing. -/
theorem claim4_version_inequality_archives_witness :
    (processSpec exOptions
        (catalogWith (priorService "2.0.0" [] [] [])) exSpec).1.versionedServices
      = priorService "2.0.0" [] [] [] :: (catalogWith (priorService "2.0.0" [] [] [])).versionedServices ∧
    (processSpec exOptions
        (catalogWith (priorService "1.0.0" [] [] [])) exSpec).1.versionedServices
      = (catalogWith (priorService "1.0.0" [] [] [])).versionedServices :=
  ⟨(claim4_version_inequality_archives exOptions exSpec exDoc
      (catalogWith (priorService "2.0.0" [] [] [])) rfl).1 (priorService "2.0.0" [] [] []) (by decide) (by decide),
   (claim4_version_inequality_archives exOptions exSpec exDoc
      (catalogWith (priorService "1.0.0" [] [] [])) rfl).2.1 (priorService "1.0.0" [] [] []) (by decide) rfl⟩

/-- C5 counterexample: with a cataloged `openapiPath` of
`old-petstore.yml` and a fresh record whose `openapiPath` is
`petstore.yml`, the specifications map written back keeps the cataloged
value — the spread `{...fresh, ...cataloged}` lets every cataloged key win,
so the fresh OpenAPI key does not overwrite the cataloged one as the claim
states. -/
theorem claim5_specifications_cex :
    (builtServiceOf exSpec exDoc).schemaPath = "petstore.yml" ∧
    lookupObj (builtServiceOf exSpec exDoc).specifications "openapiPath" = some "petstore.yml" ∧
    ((getServiceC (processSpec exOptions
        (catalogWith (priorService "1.0.0" [("openapiPath", "old-petstore.yml")] [] [])) exSpec).1
        "swagger-petstore").map (fun s => lookupObj s.specifications "openapiPath"))
      = some (some "old-petstore.yml") := by decide

/-- C5 amended: the specifications map written back contains every key of
the previously cataloged map with its cataloged value unchanged (cataloged
values take precedence, including the OpenAPI key); the freshly built
`openapiPath` survives only when the cataloged map lacks that key. -/
theorem claim5_specifications_merge (options : GeneratorProps) (serviceSpec : SpecInput)
    (document : OpenAPIDocument) (c : Catalog) (prior : SvcRecord)
    (hparse : serviceSpec.parse = some document)
    (hprior : getServiceC c (builtServiceOf serviceSpec document).id = some prior)
    (hnd : (prior.specifications.map Prod.fst).Nodup) :
    ∃ w, getServiceC (processSpec options c serviceSpec).1 (builtServiceOf serviceSpec document).id = some w ∧
      (∀ k v, lookupObj prior.specifications k = some v → lookupObj w.specifications k = some v) ∧
      (lookupObj prior.specifications "openapiPath" = none →
        lookupObj w.specifications "openapiPath" = some (builtServiceOf serviceSpec document).schemaPath) := by
  refine ⟨writtenServiceRecord serviceSpec document (some prior), ?_, ?_, ?_⟩
  · unfold processSpec
    rw [hparse]
    dsimp only
    rw [processSpecParsed_getService, hprior]
  · intro k v hk
    have hspec : (writtenServiceRecord serviceSpec document (some prior)).specifications =
        objSpread (builtServiceOf serviceSpec document).specifications prior.specifications := rfl
    rw [hspec, lookupObj_objSpread prior.specifications _ k hnd, hk]
    rfl
  · intro hnone
    have hspec : (writtenServiceRecord serviceSpec document (some prior)).specifications =
        objSpread (builtServiceOf serviceSpec document).specifications prior.specifications := rfl
    rw [hspec, lookupObj_objSpread prior.specifications _ _ hnd, hnone]
    show lookupObj (builtServiceOf serviceSpec document).specifications "openapiPath" = _
    rfl

/-- C5 amended witness: a cataloged `asyncapiPath` survives, and with no
cataloged `openapiPath` the fresh one is written. -/
theorem claim5_specifications_merge_witness :
    ∃ w, getServiceC (processSpec exOptions
        (catalogWith (priorService "1.0.0" [("asyncapiPath", "asyncapi.yml")] [] [])) exSpec).1
        (builtServiceOf exSpec exDoc).id = some w ∧
      lookupObj w.specifications "asyncapiPath" = some "asyncapi.yml" ∧
      lookupObj w.specifications "openapiPath" = some (builtServiceOf exSpec exDoc).schemaPath := by
  obtain ⟨w, hw, hkeep, hfresh⟩ := claim5_specifications_merge exOptions exSpec exDoc
    (catalogWith (priorService "1.0.0" [("asyncapiPath", "asyncapi.yml")] [] []))
    (priorService "1.0.0" [("asyncapiPath", "asyncapi.yml")] [] []) rfl (by decide) (by decide)
  exact ⟨w, hw, hkeep "asyncapiPath" "asyncapi.yml" (by decide), hfresh (by decide)⟩
